import Mathlib

/-!
# laugh_engine : `vmesh.h`

A shallow embedding of the mesh / texture / probe asset code of `vmesh.h`
and the properties of it that the specification states.

Conventions of the embedding

* A C++ `float` is an IEEE-754 binary32 value, kept as its three encoding
  fields.  Only the comparison `==` is interpreted (it needs no rounding);
  arithmetic on floats (`1.f - y`, the glm matrix functions) is taken as a
  parameter of the functions that use it.
* `uint32_t` values are natural numbers reduced modulo `2^32` where the code
  narrows to that type.
* `std::vector` is a `List`, `emplace_back` / `push_back` appends at the end.
* A `std::unordered_map` is the list of its entries in insertion order;
  `find` returns the entry whose key compares equal with the key's
  `operator==`, which is the container's contract for a hash that agrees with
  that equality.
* A function that can throw returns the exception together with the state
  that the caller can observe at the throw.
-/

namespace LaughEngine

/-! ## IEEE-754 binary32 values and their comparison -/

/-- A C++ `float`: sign bit, 8 bit biased exponent, 23 bit fraction. -/
structure F32 where
  sign : Bool
  expo : Fin 256
  mant : Fin 8388608
  deriving DecidableEq, Repr

namespace F32

/-- Not-a-number: all exponent bits set and a non-zero fraction. -/
def isNaN (a : F32) : Bool := a.expo.val == 255 && a.mant.val != 0

/-- Positive or negative zero. -/
def isZero (a : F32) : Bool := a.expo.val == 0 && a.mant.val == 0

/-- The built-in `==` of two floats: false as soon as one side is NaN, true
for two zeros of any sign, otherwise equality of the encodings. -/
def feq (a b : F32) : Bool :=
  !a.isNaN && !b.isNaN && (decide (a = b) || (a.isZero && b.isZero))

/-- The literal `0.f`. -/
def zero : F32 := ⟨false, 0, 0⟩

/-- The literal `-0.f`. -/
def negZero : F32 := ⟨true, 0, 0⟩

/-- The literal `1.f`. -/
def one : F32 := ⟨false, 127, 0⟩

/-- A quiet NaN. -/
def qnan : F32 := ⟨false, 255, 4194304⟩

end F32

/-- The type `glm::vec3`. -/
structure Vec3 where
  x : F32
  y : F32
  z : F32
  deriving DecidableEq, Repr

/-- The type `glm::vec2`. -/
structure Vec2 where
  x : F32
  y : F32
  deriving DecidableEq, Repr

/-- The glm `operator==` on `vec3`: component-wise `==`. -/
def Vec3.veq (a b : Vec3) : Bool :=
  F32.feq a.x b.x && F32.feq a.y b.y && F32.feq a.z b.z

/-- The glm `operator==` on `vec2`: component-wise `==`. -/
def Vec2.veq (a b : Vec2) : Bool :=
  F32.feq a.x b.x && F32.feq a.y b.y

/-- Some component is NaN. -/
def Vec3.hasNaN (a : Vec3) : Bool := a.x.isNaN || a.y.isNaN || a.z.isNaN

/-- Some component is NaN. -/
def Vec2.hasNaN (a : Vec2) : Bool := a.x.isNaN || a.y.isNaN

/-! ## Vertex -/

/-- The struct `Vertex`. -/
structure Vertex where
  pos : Vec3
  normal : Vec3
  texCoord : Vec2
  deriving DecidableEq, Repr

namespace Vertex

/-- The member `Vertex::operator==`. -/
def veq (a other : Vertex) : Bool :=
  Vec3.veq a.pos other.pos &&
    Vec3.veq a.normal other.normal &&
    Vec2.veq a.texCoord other.texCoord

/-- Some float of the vertex is NaN. -/
def hasNaN (a : Vertex) : Bool :=
  a.pos.hasNaN || a.normal.hasNaN || a.texCoord.hasNaN

/-- The specialisation `std::hash<Vertex>::operator()`.  The helper
`rj::helper_functions::hash_combine(seed, v)` is declared outside this file;
its instances at `glm::vec3` and `glm::vec2` are the parameters
`hash_combine3` and `hash_combine2`, each mapping the old seed and the value
to the new seed. -/
def hash (hash_combine3 : Nat → Vec3 → Nat) (hash_combine2 : Nat → Vec2 → Nat)
    (vertex : Vertex) : Nat :=
  let seed := 0
  let seed := hash_combine3 seed vertex.pos
  let seed := hash_combine3 seed vertex.normal
  let seed := hash_combine2 seed vertex.texCoord
  seed

end Vertex

/-! ## Outcomes of functions that can throw -/

/-- How a call ends: it returns, it throws `std::runtime_error` /
`std::invalid_argument` with a message, or it leaves defined behaviour (a
null dereference, a read past the end of an array, a failed `assert`).  A
throw carries the state the caller can still observe. -/
inductive Outcome (σ : Type) where
  | returned (s : σ)
  | threw (what : String) (s : σ)
  | undefined
  deriving DecidableEq, Repr

/-! ## Imported scenes -/

/-- The Assimp type `aiVector3D`. -/
structure aiVector3D where
  x : F32
  y : F32
  z : F32
  deriving DecidableEq, Repr

/-- The Assimp type `aiFace`; `mNumIndices` is the length of `mIndices`. -/
structure aiFace where
  mIndices : List Nat
  deriving DecidableEq, Repr

/-- The Assimp type `aiMesh`, the members the loader reads.  `mNumFaces` is
the length of `mFaces`; a null `mNormals` or `mTextureCoords[0]` is `none`. -/
structure aiMesh where
  mVertices : List aiVector3D
  mNormals : Option (List aiVector3D)
  mTextureCoords0 : Option (List aiVector3D)
  mFaces : List aiFace
  deriving DecidableEq, Repr

/-- The Assimp type `aiScene`; `mNumMeshes` is the length of `mMeshes`. -/
structure aiScene where
  mMeshes : List aiMesh
  deriving DecidableEq, Repr

/-! ## loadMeshIntoHostBuffers -/

/-- Width of `uint32_t`. -/
def UINT32_SIZE : Nat := 4294967296

/-- The local variables of `loadMeshIntoHostBuffers` that the loops change. -/
structure WeldState where
  vert2IdxLut : List (Vertex × Nat)
  hostVerts : List Vertex
  hostIndices : List Nat
  deriving DecidableEq, Repr

/-- The two buffers the caller passes by reference. -/
structure HostBuffers where
  hostVerts : List Vertex
  hostIndices : List Nat
  deriving DecidableEq, Repr

/-- The call `vert2IdxLut.find(vert)`; `none` is `end()`. -/
def lutFind (lut : List (Vertex × Nat)) (vert : Vertex) : Option (Vertex × Nat) :=
  lut.find? (fun e => Vertex.veq e.1 vert)

/-- The assignment `vert2IdxLut[vert] = newIdx`: the entry with an equal key
is overwritten, and a new entry is made when there is none. -/
def lutAssign (lut : List (Vertex × Nat)) (vert : Vertex) (newIdx : Nat) :
    List (Vertex × Nat) :=
  match lutFind lut vert with
  | none => lut ++ [(vert, newIdx)]
  | some _ => lut.map (fun e => if Vertex.veq e.1 vert then (e.1, newIdx) else e)

/-- Lines 148-159: look the vertex up and either reuse its index or append
it under a new one. -/
def weldVertex (st : WeldState) (vert : Vertex) : WeldState :=
  match lutFind st.vert2IdxLut vert with
  | none =>
    let newIdx := st.hostVerts.length % UINT32_SIZE
    { vert2IdxLut := lutAssign st.vert2IdxLut vert newIdx
      hostIndices := st.hostIndices ++ [newIdx]
      hostVerts := st.hostVerts ++ [vert] }
  | some searchResult =>
    { st with hostIndices := st.hostIndices ++ [searchResult.2] }

/-- Lines 141-146: the vertex built from the three attribute reads;
`fsub` is float subtraction. -/
def makeVertex (fsub : F32 → F32 → F32) (pos nrm texCoord : aiVector3D) : Vertex :=
  { pos := ⟨pos.x, pos.y, pos.z⟩
    normal := ⟨nrm.x, nrm.y, nrm.z⟩
    texCoord := ⟨texCoord.x, fsub F32.one texCoord.y⟩ }

/-- Lines 136-159, the body of the loop over `k`.  A read outside one of the
three arrays is `none`. -/
def cornerBody (fsub : F32 → F32 → F32) (vertices normals texCoords : List aiVector3D)
    (st : WeldState) (idx : Nat) : Option WeldState :=
  match vertices[idx]?, normals[idx]?, texCoords[idx]? with
  | some pos, some nrm, some texCoord => some (weldVertex st (makeVertex fsub pos nrm texCoord))
  | _, _, _ => none

/-- Lines 134-160, the loop over the corners `k` of one face. -/
def cornerLoop (fsub : F32 → F32 → F32) (vertices normals texCoords : List aiVector3D) :
    List Nat → WeldState → Option WeldState
  | [], st => some st
  | idx :: rest, st =>
    match cornerBody fsub vertices normals texCoords st idx with
    | some st1 => cornerLoop fsub vertices normals texCoords rest st1
    | none => none

/-- Lines 128-161, the loop over the faces `j` of one mesh. -/
def faceLoop (fsub : F32 → F32 → F32) (vertices normals texCoords : List aiVector3D) :
    List aiFace → WeldState → Option WeldState
  | [], st => some st
  | face :: rest, st =>
    if face.mIndices.length ≠ 3 then faceLoop fsub vertices normals texCoords rest st
    else
      match cornerLoop fsub vertices normals texCoords face.mIndices st with
      | some st1 => faceLoop fsub vertices normals texCoords rest st1
      | none => none

/-- The message of the exception of line 125. -/
def missingAttributesMsg : String := "model must have normals and uvs."

/-- Lines 115-162, the loop over the meshes `i`. -/
def meshLoop (fsub : F32 → F32 → F32) : List aiMesh → WeldState → Outcome WeldState
  | [], st => .returned st
  | mesh :: rest, st =>
    match mesh.mNormals, mesh.mTextureCoords0 with
    | some normals, some texCoords =>
      match faceLoop fsub mesh.mVertices normals texCoords mesh.mFaces st with
      | some st1 => meshLoop fsub rest st1
      | none => .undefined
    | _, _ => .threw missingAttributesMsg st

/-- What the caller sees of the loop state. -/
def WeldState.buffers (st : WeldState) : HostBuffers :=
  { hostVerts := st.hostVerts, hostIndices := st.hostIndices }

/-- The function `rj::helper_functions::loadMeshIntoHostBuffers`.  `ReadFile`
is the importer call of line 111 (a null scene is `none`), `fsub` is float
subtraction. -/
def loadMeshIntoHostBuffers (ReadFile : String → Option aiScene) (fsub : F32 → F32 → F32)
    (modelFileName : String) (hostVerts : List Vertex) (hostIndices : List Nat) :
    Outcome HostBuffers :=
  match ReadFile modelFileName with
  | none => .undefined
  | some scene =>
    match meshLoop fsub scene.mMeshes
        { vert2IdxLut := [], hostVerts := hostVerts, hostIndices := hostIndices } with
    | .returned st => .returned st.buffers
    | .threw what st => .threw what st.buffers
    | .undefined => .undefined

/-! ### The corner sequence of a scene, as the specification words it -/

/-- The mesh has normals and texture-coordinate set 0. -/
def aiMesh.hasNormalsAndUVs (m : aiMesh) : Bool :=
  m.mNormals.isSome && m.mTextureCoords0.isSome

/-- An imported mesh is consistent: the attribute arrays that exist have one
entry per vertex and every face index addresses a vertex. -/
def aiMesh.Consistent (m : aiMesh) : Prop :=
  (∀ ns ∈ m.mNormals, ns.length = m.mVertices.length) ∧
  (∀ ts ∈ m.mTextureCoords0, ts.length = m.mVertices.length) ∧
  (∀ f ∈ m.mFaces, ∀ idx ∈ f.mIndices, idx < m.mVertices.length)

instance (m : aiMesh) : Decidable m.Consistent := by
  unfold aiMesh.Consistent
  infer_instance

/-- Every mesh of the scene is consistent. -/
def aiScene.Consistent (scene : aiScene) : Prop :=
  ∀ m ∈ scene.mMeshes, m.Consistent

instance (scene : aiScene) : Decidable scene.Consistent := by
  unfold aiScene.Consistent
  infer_instance

/-- Every mesh of the scene has normals and texture-coordinate set 0. -/
def aiScene.hasNormalsAndUVs (scene : aiScene) : Bool :=
  scene.mMeshes.all aiMesh.hasNormalsAndUVs

/-- The empty state the loader starts from when both buffers are empty. -/
def WeldState.empty : WeldState :=
  { vert2IdxLut := [], hostVerts := [], hostIndices := [] }

/-- The zero vector, read where an attribute is absent. -/
def aiVector3D.zero : aiVector3D := ⟨F32.zero, F32.zero, F32.zero⟩

/-- The corner with source index `idx`, in the words of the specification:
the vertex `(vertices[idx], normals[idx], (texCoords[idx].x, 1 -
texCoords[idx].y))`.  Position and normal are the three coordinates of the
mesh's entry `idx`, the texture coordinate keeps `x` and flips `y`; `fsub` is
float subtraction. -/
def cornerOf (fsub : F32 → F32 → F32) (m : aiMesh) (idx : Nat) : Vertex :=
  { pos :=
      { x := (m.mVertices.getD idx aiVector3D.zero).x
        y := (m.mVertices.getD idx aiVector3D.zero).y
        z := (m.mVertices.getD idx aiVector3D.zero).z }
    normal :=
      { x := ((m.mNormals.getD []).getD idx aiVector3D.zero).x
        y := ((m.mNormals.getD []).getD idx aiVector3D.zero).y
        z := ((m.mNormals.getD []).getD idx aiVector3D.zero).z }
    texCoord :=
      { x := ((m.mTextureCoords0.getD []).getD idx aiVector3D.zero).x
        y := fsub F32.one ((m.mTextureCoords0.getD []).getD idx aiVector3D.zero).y } }

/-- The faces that are not skipped: those with exactly 3 indices. -/
def triangles (m : aiMesh) : List aiFace :=
  m.mFaces.filter (fun f => f.mIndices.length == 3)

/-- The corners of a mesh: face by face, corner by corner. -/
def meshCorners (fsub : F32 → F32 → F32) (m : aiMesh) : List Vertex :=
  (triangles m).flatMap (fun f => f.mIndices.map (cornerOf fsub m))

/-- The corners of a scene: mesh by mesh. -/
def sceneCorners (fsub : F32 → F32 → F32) (scene : aiScene) : List Vertex :=
  scene.mMeshes.flatMap (meshCorners fsub)

/-- Number of faces of the scene with exactly 3 indices. -/
def triangleCount (scene : aiScene) : Nat :=
  (scene.mMeshes.map (fun m => (triangles m).length)).sum

/-- The corner vertices that are `==` to no earlier corner of the sequence,
in corner order: the distinct corner vertices. -/
def distinctCorners (cs : List Vertex) : List Vertex :=
  (List.range cs.length).filterMap (fun p =>
    match cs[p]? with
    | some c => if (cs.take p).any (fun u => Vertex.veq u c) then none else some c
    | none => none)

/-- The welding step run over a sequence of vertices. -/
def weld (st : WeldState) (cs : List Vertex) : WeldState :=
  cs.foldl weldVertex st

/-- What holds between the corners `cs` welded so far and the loop state.
`raw` lists, corner by corner, the position in `hostVerts` the corner was
given; `hostIndices` holds these positions narrowed to `uint32_t`. -/
structure WeldInv (cs : List Vertex) (st : WeldState) (raw : List Nat) : Prop where
  lut_keys : st.vert2IdxLut.map Prod.fst = st.hostVerts
  lut_vals : ∀ (j : Nat) (e : Vertex × Nat), st.vert2IdxLut[j]? = some e → e.2 = j % UINT32_SIZE
  verts : st.hostVerts = distinctCorners cs
  verts_mem : ∀ v ∈ st.hostVerts, v ∈ cs
  pairwise : st.hostVerts.Pairwise (fun a b => Vertex.veq a b = false)
  indices : st.hostIndices = raw.map (fun j => j % UINT32_SIZE)
  raw_len : raw.length = cs.length
  raw_ok : ∀ (p j : Nat) (c : Vertex), raw[p]? = some j → cs[p]? = some c →
    ∃ v, st.hostVerts[j]? = some v ∧ (v = c ∨ Vertex.veq v c = true)
  covered : ∀ j : Nat, j < st.hostVerts.length → j ∈ raw
  growth : ∀ p j : Nat, raw[p]? = some j → ∀ k : Nat, k < j → k ∈ raw.take p

/-! ## loadTexture2D -/

/-- The Vulkan formats the file names. -/
inductive VkFormat where
  | VK_FORMAT_UNDEFINED
  | VK_FORMAT_R8G8B8A8_UNORM
  | VK_FORMAT_R32G32_SFLOAT
  | VK_FORMAT_R32G32B32_SFLOAT
  | VK_FORMAT_R32G32B32A32_SFLOAT
  | VK_FORMAT_BC3_UNORM_BLOCK
  deriving DecidableEq, Repr

/-- The gli texture formats: the four the loader accepts and, under
`other`, every further format by its enumerator value. -/
inductive GliFormat where
  | FORMAT_RGBA8_UNORM_PACK8
  | FORMAT_RGBA32_SFLOAT_PACK32
  | FORMAT_RGBA_DXT5_UNORM_BLOCK16
  | FORMAT_RG32_SFLOAT_PACK32
  | other (code : Nat)
  deriving DecidableEq, Repr

/-- What the loader reads of a `gli::texture2d`: `empty()`, `format()`,
`extent()` (a pair of `int`), `levels()` and `size()` (both `size_t`) and the
bytes behind `data()`. -/
structure Texture2d where
  empty : Bool
  format : GliFormat
  extent_x : Int
  extent_y : Int
  levels : Nat
  size : Nat
  data : List Nat
  deriving DecidableEq, Repr

/-- The extent and the level count are what a texture container file can
hold: non-negative extents and a level count that fit 32 bits. -/
def Texture2d.InRange (t : Texture2d) : Prop :=
  0 ≤ t.extent_x ∧ t.extent_x < 4294967296 ∧
  0 ≤ t.extent_y ∧ t.extent_y < 4294967296 ∧
  t.levels < 4294967296

instance (t : Texture2d) : Decidable t.InRange := by
  unfold Texture2d.InRange
  infer_instance

/-- The struct `ImageWrapper`. -/
structure ImageWrapper where
  image : Nat
  imageViews : List Nat
  format : VkFormat
  width : Nat
  height : Nat
  depth : Nat
  mipLevelCount : Nat
  deriving DecidableEq, Repr

/-- How a call into the device manager ends: with a value and the manager's
new state, or with an exception and the manager's state at the throw. -/
inductive Call (M α : Type) where
  | ok (value : α) (m : M)
  | throws (what : String) (m : M)

/-- What `loadTexture2D` calls and this file does not define: the helper
`getFileExtension`, the gli functions `load` and `generate_mipmaps` (with
`FILTER_LINEAR`), and the three `VManager` methods, over the manager's
state `M`. -/
structure TextureEnv (M : Type) where
  getFileExtension : String → String
  load : String → Texture2d
  generate_mipmaps : Texture2d → Texture2d
  createImage2D : M → (width height : Nat) → VkFormat → (usage memoryProperties : Nat) →
    (mipLevels : Nat) → Call M Nat
  transferHostDataToImage : M → (image sizeInBytes : Nat) → (data : List Nat) →
    (aspect layout : Nat) → Call M Unit
  createImageView2D : M → (image aspect baseMipLevel levelCount : Nat) → Call M Nat

/-- The value `VK_IMAGE_USAGE_TRANSFER_DST_BIT`. -/
def VK_IMAGE_USAGE_TRANSFER_DST_BIT : Nat := 2

/-- The value `VK_IMAGE_USAGE_SAMPLED_BIT`. -/
def VK_IMAGE_USAGE_SAMPLED_BIT : Nat := 4

/-- The value `VK_MEMORY_PROPERTY_DEVICE_LOCAL_BIT`. -/
def VK_MEMORY_PROPERTY_DEVICE_LOCAL_BIT : Nat := 1

/-- The value `VK_IMAGE_ASPECT_COLOR_BIT`. -/
def VK_IMAGE_ASPECT_COLOR_BIT : Nat := 1

/-- The value `VK_IMAGE_LAYOUT_SHADER_READ_ONLY_OPTIMAL`. -/
def VK_IMAGE_LAYOUT_SHADER_READ_ONLY_OPTIMAL : Nat := 5

/-- Lines 190-207, the `switch` over the gli format; `none` is the
`default` label, which throws. -/
def vkFormatOf : GliFormat → Option VkFormat
  | .FORMAT_RGBA8_UNORM_PACK8 => some .VK_FORMAT_R8G8B8A8_UNORM
  | .FORMAT_RGBA32_SFLOAT_PACK32 => some .VK_FORMAT_R32G32B32A32_SFLOAT
  | .FORMAT_RGBA_DXT5_UNORM_BLOCK16 => some .VK_FORMAT_BC3_UNORM_BLOCK
  | .FORMAT_RG32_SFLOAT_PACK32 => some .VK_FORMAT_R32G32_SFLOAT
  | .other _ => none

/-- Lines 180-188: the texture that is uploaded. -/
def textureMipmapped (env : TextureEnv M) (fn : String) (generateMipLevels : Bool) :
    Texture2d :=
  let textureSrc := env.load fn
  if textureSrc.levels = 1 ∧ generateMipLevels = true then env.generate_mipmaps textureSrc
  else textureSrc

/-- The conversion `static_cast<uint32_t>` of an `int`. -/
def toUInt32 (x : Int) : Nat := (x % 4294967296).toNat

/-- The function `rj::helper_functions::loadTexture2D`; `pTexRet` is the
wrapper behind the pointer and `pManager` the state of the manager behind
its pointer.  The outcome carries both as they are on return or at the
throw. -/
def loadTexture2D (env : TextureEnv M) (pTexRet : ImageWrapper) (pManager : M) (fn : String)
    (generateMipLevels : Bool) : Outcome (ImageWrapper × M) :=
  let ext := env.getFileExtension fn
  if ext ≠ "ktx" ∧ ext ≠ "dds" then
    .threw ("texture type ." ++ ext ++ " is not supported.") (pTexRet, pManager)
  else
    let textureSrc := env.load fn
    if textureSrc.empty = true then
      .threw "cannot load texture." (pTexRet, pManager)
    else
      let textureMipmapped :=
        if textureSrc.levels = 1 ∧ generateMipLevels = true then env.generate_mipmaps textureSrc
        else textureSrc
      match vkFormatOf textureMipmapped.format with
      | none => .threw "texture format is not supported." (pTexRet, pManager)
      | some format =>
        let width := toUInt32 textureMipmapped.extent_x
        let height := toUInt32 textureMipmapped.extent_y
        let mipLevels := textureMipmapped.levels % 4294967296
        let sizeInBytes := textureMipmapped.size
        let tex1 : ImageWrapper :=
          { pTexRet with width := width, height := height, format := format,
                         mipLevelCount := mipLevels }
        match env.createImage2D pManager width height format
            (VK_IMAGE_USAGE_TRANSFER_DST_BIT ||| VK_IMAGE_USAGE_SAMPLED_BIT)
            VK_MEMORY_PROPERTY_DEVICE_LOCAL_BIT mipLevels with
        | .throws what m => .threw what (tex1, m)
        | .ok image m1 =>
          let tex2 : ImageWrapper := { tex1 with image := image }
          match env.transferHostDataToImage m1 tex2.image sizeInBytes textureMipmapped.data
              VK_IMAGE_ASPECT_COLOR_BIT VK_IMAGE_LAYOUT_SHADER_READ_ONLY_OPTIMAL with
          | .throws what m => .threw what (tex2, m)
          | .ok _ m2 =>
            match env.createImageView2D m2 tex2.image VK_IMAGE_ASPECT_COLOR_BIT 0 mipLevels with
            | .throws what m => .threw what (tex2, m)
            | .ok view m3 =>
              .returned ({ tex2 with imageViews := tex2.imageViews ++ [view] }, m3)

/-! ## VMesh::updateHostUniformBuffer -/

/-- The struct `PerModelUniformBuffer` over the matrix type `Mat4`. -/
structure PerModelUniformBuffer (Mat4 : Type) where
  M : Mat4
  M_invTrans : Mat4

/-- The glm functions that `updateHostUniformBuffer` calls, over the types
`glm::mat4` and `glm::quat`; their float arithmetic is not interpreted. -/
structure Glm (Mat4 Quat : Type) where
  identity : Mat4
  mat4_cast : Quat → Mat4
  scale : Mat4 → Vec3 → Mat4
  mul : Mat4 → Mat4 → Mat4
  translate : Mat4 → Vec3 → Mat4
  inverse : Mat4 → Mat4
  transpose : Mat4 → Mat4

/-- The data members of the class `VMesh`.  `uPerModelInfo` is the pointer
together with the buffer it points to, `none` for `nullptr`. -/
structure VMesh (Mat4 Quat : Type) where
  pVulkanManager : Nat
  uPerModelInfo : Option (PerModelUniformBuffer Mat4)
  uniformDataChanged : Bool
  worldPosition : Vec3
  worldRotation : Quat
  scale : F32
  vertexBuffer : Nat
  indexBuffer : Nat
  albedoMap : ImageWrapper
  normalMap : ImageWrapper
  roughnessMap : ImageWrapper
  metalnessMap : ImageWrapper
  aoMap : ImageWrapper
  materialType : Nat

/-- The right-hand side of line 332. -/
def modelMatrix (glm : Glm Mat4 Quat) (worldRotation : Quat) (scale : F32)
    (worldPosition : Vec3) : Mat4 :=
  glm.translate
    (glm.mul (glm.mat4_cast worldRotation) (glm.scale glm.identity ⟨scale, scale, scale⟩))
    worldPosition

/-- The method `VMesh::updateHostUniformBuffer`; a failing `assert` is
`undefined`. -/
def VMesh.updateHostUniformBuffer (glm : Glm Mat4 Quat) (self : VMesh Mat4 Quat) :
    Outcome (VMesh Mat4 Quat) :=
  match self.uPerModelInfo with
  | none => .undefined
  | some info =>
    if self.uniformDataChanged = false then .returned self
    else
      let info1 : PerModelUniformBuffer Mat4 :=
        { info with M := modelMatrix glm self.worldRotation self.scale self.worldPosition }
      let info2 : PerModelUniformBuffer Mat4 :=
        { info1 with M_invTrans := glm.transpose (glm.inverse info1.M) }
      .returned { self with uPerModelInfo := some info2, uniformDataChanged := false }

/-! ## Skybox::load -/

/-- The value of the `#define DIFF_IRRADIANCE_MAP_SIZE`. -/
def DIFF_IRRADIANCE_MAP_SIZE : Nat := 32

/-- The value of the `#define SPEC_IRRADIANCE_MAP_SIZE`. -/
def SPEC_IRRADIANCE_MAP_SIZE : Nat := 512

/-- The value `VK_IMAGE_TILING_OPTIMAL`. -/
def VK_IMAGE_TILING_OPTIMAL : Nat := 0

/-- The value `VK_IMAGE_USAGE_TRANSFER_SRC_BIT`. -/
def VK_IMAGE_USAGE_TRANSFER_SRC_BIT : Nat := 1

/-- The value `VK_IMAGE_USAGE_COLOR_ATTACHMENT_BIT`. -/
def VK_IMAGE_USAGE_COLOR_ATTACHMENT_BIT : Nat := 16

/-- The value `VK_SAMPLER_ADDRESS_MODE_CLAMP_TO_EDGE`. -/
def VK_SAMPLER_ADDRESS_MODE_CLAMP_TO_EDGE : Nat := 2

/-- The value `VK_SUCCESS`. -/
def VK_SUCCESS : Int := 0

/-- The image wrapper `Skybox::load` is written against: besides the format
it has the members `mipLevels`, `imageMemory`, `imageView` and `sampler`. -/
structure CubeMap where
  image : Nat
  imageMemory : Nat
  imageView : Nat
  imageViews : List Nat
  sampler : Nat
  format : VkFormat
  mipLevels : Nat
  deriving DecidableEq, Repr

/-- The members of `VkSamplerCreateInfo` that `Skybox::load` sets; `rest`
stands for the others. -/
structure SamplerInfo where
  addressModeU : Nat
  addressModeV : Nat
  addressModeW : Nat
  maxLod : Nat
  rest : Nat
  deriving DecidableEq, Repr

/-- What `Skybox::load` calls and this file does not define, over the state
`D` of the device and the inherited `VMesh` members `B`. -/
structure SkyboxEnv (D B : Type) where
  loadCubemap : D → String → CubeMap → Call D CubeMap
  createCubemapImage : D → (width height mipLevels : Nat) → VkFormat →
    (tiling usage memoryProperties : Nat) → Call D (Nat × Nat)
  createImageViewCube : D → (image : Nat) → VkFormat → (aspect mipLevels : Nat) → Call D Nat
  createImageViewCubeLevel : D → (image : Nat) → VkFormat →
    (aspect baseMipLevel levelCount : Nat) → Call D Nat
  getDefaultSamplerCreateInfo : SamplerInfo → SamplerInfo
  vkCreateSampler : D → SamplerInfo → Int × Nat × D
  vmeshLoad : D → B → String → Call D B

/-- The data members of the class `Skybox`; `base` holds the members
inherited from `VMesh`. -/
structure Skybox (B : Type) where
  base : B
  radianceMap : CubeMap
  specularIrradianceMap : CubeMap
  diffuseIrradianceMap : CubeMap
  specMapReady : Bool
  diffMapReady : Bool
  shouldSaveSpecMap : Bool
  shouldSaveDiffMap : Bool
  deriving DecidableEq, Repr

/-- The four flags as the default member initialisers of lines 345-348 leave
them; the constructor does not assign them. -/
def Skybox.Fresh (self : Skybox B) : Prop :=
  self.specMapReady = false ∧ self.diffMapReady = false ∧
  self.shouldSaveSpecMap = false ∧ self.shouldSaveDiffMap = false

/-- Sequencing of two steps of a function body. -/
def Outcome.andThen (o : Outcome σ) (f : σ → Outcome σ) : Outcome σ :=
  match o with
  | .returned s => f s
  | .threw what s => .threw what s
  | .undefined => .undefined

/-- The call `imageViews.resize(n, h)`. -/
def resize (views : List Nat) (n h : Nat) : List Nat :=
  views.take n ++ List.replicate (n - views.length) h

/-- Lines 401-405, the loop over the mip levels; `todo` lists the levels
still to come. -/
def levelViewLoop (env : SkyboxEnv D B) : List Nat → Skybox B → D → Outcome (Skybox B × D)
  | [], self, device => .returned (self, device)
  | level :: todo, self, device =>
    match env.createImageViewCubeLevel device self.specularIrradianceMap.image
        self.specularIrradianceMap.format VK_IMAGE_ASPECT_COLOR_BIT level 1 with
    | .throws what d => .threw what (self, d)
    | .ok view d =>
      levelViewLoop env todo
        { self with specularIrradianceMap :=
            { self.specularIrradianceMap with
                imageViews := self.specularIrradianceMap.imageViews.set level view } } d

/-- The sampler set-up of lines 407-412 and 443-448. -/
def clampSamplerInfo (env : SkyboxEnv D B) (mipLevels : Nat) : SamplerInfo :=
  let samplerInfo : SamplerInfo :=
    env.getDefaultSamplerCreateInfo
      { addressModeU := 0, addressModeV := 0, addressModeW := 0, maxLod := 0, rest := 0 }
  { samplerInfo with
      addressModeU := VK_SAMPLER_ADDRESS_MODE_CLAMP_TO_EDGE
      addressModeV := VK_SAMPLER_ADDRESS_MODE_CLAMP_TO_EDGE
      addressModeW := VK_SAMPLER_ADDRESS_MODE_CLAMP_TO_EDGE
      maxLod := (mipLevels + 4294967295) % 4294967296 }

/-- Binary logarithm rounded down, by halving; `fuel` bounds the halvings. -/
def floorLog2Aux : Nat → Nat → Nat
  | 0, _ => 0
  | fuel + 1, n => if n < 2 then 0 else floorLog2Aux fuel (n / 2) + 1

/-- Binary logarithm rounded down. -/
def floorLog2 (n : Nat) : Nat := floorLog2Aux n n

/-- Lines 378-420, the statement on `specMapName`.  The map size is the power
of two 512, for which `log2f` is exact: `floor(log2f(512) + 0.5f)` is the
binary logarithm 9. -/
def Skybox.loadSpecular (env : SkyboxEnv D B) (self : Skybox B) (device : D)
    (specMapName : String) : Outcome (Skybox B × D) :=
  if specMapName ≠ "" then
    match env.loadCubemap device specMapName self.specularIrradianceMap with
    | .throws what d => .threw what (self, d)
    | .ok map d => .returned ({ self with specularIrradianceMap := map, specMapReady := true }, d)
  else
    let mipLevels := floorLog2 SPEC_IRRADIANCE_MAP_SIZE + 1
    let self1 : Skybox B :=
      { self with specularIrradianceMap :=
          { self.specularIrradianceMap with
              mipLevels := mipLevels, format := .VK_FORMAT_R32G32B32A32_SFLOAT } }
    match env.createCubemapImage device SPEC_IRRADIANCE_MAP_SIZE SPEC_IRRADIANCE_MAP_SIZE
        mipLevels self1.specularIrradianceMap.format VK_IMAGE_TILING_OPTIMAL
        (VK_IMAGE_USAGE_COLOR_ATTACHMENT_BIT ||| VK_IMAGE_USAGE_TRANSFER_SRC_BIT |||
          VK_IMAGE_USAGE_SAMPLED_BIT)
        VK_MEMORY_PROPERTY_DEVICE_LOCAL_BIT with
    | .throws what d => .threw what (self1, d)
    | .ok (image, imageMemory) d1 =>
      let self2 : Skybox B :=
        { self1 with specularIrradianceMap :=
            { self1.specularIrradianceMap with image := image, imageMemory := imageMemory } }
      match env.createImageViewCube d1 self2.specularIrradianceMap.image
          self2.specularIrradianceMap.format VK_IMAGE_ASPECT_COLOR_BIT
          self2.specularIrradianceMap.mipLevels with
      | .throws what d => .threw what (self2, d)
      | .ok imageView d2 =>
        let self3 : Skybox B :=
          { self2 with specularIrradianceMap :=
              { self2.specularIrradianceMap with
                  imageView := imageView
                  imageViews := resize self2.specularIrradianceMap.imageViews mipLevels 0 } }
        (levelViewLoop env (List.range mipLevels) self3 d2).andThen fun (self4, d3) =>
          let samplerInfo := clampSamplerInfo env self4.specularIrradianceMap.mipLevels
          match env.vkCreateSampler d3 samplerInfo with
          | (result, sampler, d4) =>
            let self5 : Skybox B :=
              { self4 with specularIrradianceMap :=
                  { self4.specularIrradianceMap with sampler := sampler } }
            if result ≠ VK_SUCCESS then
              .threw "failed to create specular irradiance map sampler!" (self5, d4)
            else .returned ({ self5 with shouldSaveSpecMap := true }, d4)

/-- Lines 422-456, the statement on `diffuseMapName`. -/
def Skybox.loadDiffuse (env : SkyboxEnv D B) (self : Skybox B) (device : D)
    (diffuseMapName : String) : Outcome (Skybox B × D) :=
  if diffuseMapName ≠ "" then
    match env.loadCubemap device diffuseMapName self.diffuseIrradianceMap with
    | .throws what d => .threw what (self, d)
    | .ok map d => .returned ({ self with diffuseIrradianceMap := map, diffMapReady := true }, d)
  else
    let self1 : Skybox B :=
      { self with diffuseIrradianceMap :=
          { self.diffuseIrradianceMap with
              mipLevels := 1, format := .VK_FORMAT_R32G32B32A32_SFLOAT } }
    match env.createCubemapImage device DIFF_IRRADIANCE_MAP_SIZE DIFF_IRRADIANCE_MAP_SIZE
        self1.diffuseIrradianceMap.mipLevels self1.diffuseIrradianceMap.format
        VK_IMAGE_TILING_OPTIMAL
        (VK_IMAGE_USAGE_COLOR_ATTACHMENT_BIT ||| VK_IMAGE_USAGE_TRANSFER_SRC_BIT |||
          VK_IMAGE_USAGE_SAMPLED_BIT)
        VK_MEMORY_PROPERTY_DEVICE_LOCAL_BIT with
    | .throws what d => .threw what (self1, d)
    | .ok (image, imageMemory) d1 =>
      let self2 : Skybox B :=
        { self1 with diffuseIrradianceMap :=
            { self1.diffuseIrradianceMap with image := image, imageMemory := imageMemory } }
      match env.createImageViewCubeLevel d1 self2.diffuseIrradianceMap.image
          self2.diffuseIrradianceMap.format VK_IMAGE_ASPECT_COLOR_BIT 0 1 with
      | .throws what d => .threw what (self2, d)
      | .ok imageView d2 =>
        let self3 : Skybox B :=
          { self2 with diffuseIrradianceMap :=
              { self2.diffuseIrradianceMap with imageView := imageView } }
        let samplerInfo := clampSamplerInfo env self3.diffuseIrradianceMap.mipLevels
        match env.vkCreateSampler d2 samplerInfo with
        | (result, sampler, d3) =>
          let self4 : Skybox B :=
            { self3 with diffuseIrradianceMap :=
                { self3.diffuseIrradianceMap with sampler := sampler } }
          if result ≠ VK_SUCCESS then
            .threw "failed to create diffuse irradiance map sampler!" (self4, d3)
          else .returned ({ self4 with shouldSaveDiffMap := true }, d3)

/-- The method `Skybox::load`. -/
def Skybox.load (env : SkyboxEnv D B) (self : Skybox B) (device : D)
    (modelFileName radianceMapName specMapName diffuseMapName : String) :
    Outcome (Skybox B × D) :=
  let radiance : Outcome (Skybox B × D) :=
    if radianceMapName ≠ "" then
      match env.loadCubemap device radianceMapName self.radianceMap with
      | .throws what d => .threw what (self, d)
      | .ok map d => .returned ({ self with radianceMap := map }, d)
    else .threw "radiance map required but not provided." (self, device)
  radiance.andThen fun (self1, d1) =>
  (Skybox.loadSpecular env self1 d1 specMapName).andThen fun (self2, d2) =>
  (Skybox.loadDiffuse env self2 d2 diffuseMapName).andThen fun (self3, d3) =>
  match env.vmeshLoad d3 self3.base modelFileName with
  | .throws what d => .threw what (self3, d)
  | .ok base d => .returned ({ self3 with base := base }, d)

/-! ### Distinct vertices by value -/

/-- The float with a negative zero replaced by the positive zero: two floats
that are not NaN are `==` exactly when this value is the same. -/
def F32.canon (a : F32) : F32 := if a.isZero then F32.zero else a

/-- The vector with every negative zero replaced by the positive zero. -/
def Vec3.canon (a : Vec3) : Vec3 := ⟨a.x.canon, a.y.canon, a.z.canon⟩

/-- The vector with every negative zero replaced by the positive zero. -/
def Vec2.canon (a : Vec2) : Vec2 := ⟨a.x.canon, a.y.canon⟩

/-- The vertex with every negative zero replaced by the positive zero. -/
def Vertex.canon (a : Vertex) : Vertex := ⟨a.pos.canon, a.normal.canon, a.texCoord.canon⟩

/-! ## Sample inputs -/

/-- Float subtraction where the samples need it and the IEEE result is
exact: `a - 0` is `a`, and `a - a` is `0` for a finite `a`.  The sample scenes
subtract nothing else; any other difference is left as NaN. -/
def sampleSub (a b : F32) : F32 :=
  if b.isZero then a
  else if a = b ∧ a.expo.val < 255 then F32.zero
  else F32.qnan

/-- The `std::hash<float>` of the usual standard libraries in outline: both
zeros hash to 0, every other value to its bit pattern. -/
def sampleHashFloat (a : F32) : Nat :=
  if a.isZero then 0
  else (if a.sign then 2147483648 else 0) + a.expo.val * 8388608 + a.mant.val

/-- The usual seed mixing `seed ^= h + 0x9e3779b9 + (seed << 6) + (seed >> 2)`
on a 64 bit `size_t`. -/
def sampleMix (seed h : Nat) : Nat :=
  (seed ^^^ ((h + 2654435769 + seed * 64 + seed / 4) % 18446744073709551616))
    % 18446744073709551616

/-- A sample `hash_combine` at `glm::vec3`. -/
def sampleHashCombine3 (seed : Nat) (v : Vec3) : Nat :=
  sampleMix seed
    (sampleMix (sampleMix (sampleMix 0 (sampleHashFloat v.x)) (sampleHashFloat v.y))
      (sampleHashFloat v.z))

/-- A sample `hash_combine` at `glm::vec2`. -/
def sampleHashCombine2 (seed : Nat) (v : Vec2) : Nat :=
  sampleMix seed (sampleMix (sampleMix 0 (sampleHashFloat v.x)) (sampleHashFloat v.y))

/-- The vector `(a, 0, 0)` with `a` the float of exponent 127 and fraction `n`. -/
def sampleVec (n : Fin 8388608) : aiVector3D := ⟨⟨false, 127, n⟩, F32.zero, F32.zero⟩

/-- The vector `(0, 0, 1)`. -/
def unitZ : aiVector3D := ⟨F32.zero, F32.zero, F32.one⟩

/-- A vector with a NaN component. -/
def nanVec : aiVector3D := ⟨F32.qnan, F32.zero, F32.one⟩

/-- A quad: four vertices of which the last repeats the first, two
triangles and a line between them. -/
def quadMesh : aiMesh :=
  { mVertices := [sampleVec 0, sampleVec 1, sampleVec 2, sampleVec 0]
    mNormals := some [unitZ, unitZ, unitZ, unitZ]
    mTextureCoords0 := some [aiVector3D.zero, aiVector3D.zero, aiVector3D.zero, aiVector3D.zero]
    mFaces := [⟨[0, 1, 2]⟩, ⟨[0, 1]⟩, ⟨[2, 1, 3]⟩] }

/-- A triangle that shares two corner vertices with `quadMesh`. -/
def triMesh : aiMesh :=
  { mVertices := [sampleVec 1, sampleVec 2, sampleVec 3]
    mNormals := some [unitZ, unitZ, unitZ]
    mTextureCoords0 := some [aiVector3D.zero, aiVector3D.zero, aiVector3D.zero]
    mFaces := [⟨[0, 1, 2]⟩] }

/-- A mesh without normals and without faces. -/
def bareMesh : aiMesh :=
  { mVertices := [sampleVec 0]
    mNormals := none
    mTextureCoords0 := some [aiVector3D.zero]
    mFaces := [] }

/-- A triangle whose first vertex has a NaN normal. -/
def nanMesh : aiMesh :=
  { mVertices := [sampleVec 0, sampleVec 1, sampleVec 2]
    mNormals := some [nanVec, unitZ, unitZ]
    mTextureCoords0 := some [aiVector3D.zero, aiVector3D.zero, aiVector3D.zero]
    mFaces := [⟨[0, 1, 2]⟩] }

/-- The texture coordinate `(u, v)`. -/
def sampleUV (u v : F32) : aiVector3D := ⟨u, v, F32.zero⟩

/-- A triangle whose three corners share position and normal, those of the
first vertex of `quadMesh`, and differ in the texture coordinate only:
`(0, 0)`, `(1, 0)` and `(0, 1)`. -/
def uvMesh : aiMesh :=
  { mVertices := [sampleVec 0, sampleVec 0, sampleVec 0]
    mNormals := some [unitZ, unitZ, unitZ]
    mTextureCoords0 :=
      some [sampleUV F32.zero F32.zero, sampleUV F32.one F32.zero, sampleUV F32.zero F32.one]
    mFaces := [⟨[0, 1, 2]⟩] }

/-- Three meshes with normals and UVs. -/
def sampleScene : aiScene := { mMeshes := [quadMesh, triMesh, uvMesh] }

/-- The vertex at `(a, 0, 0)`, `a` the float of exponent 127 and fraction
`n`, with normal `(0, 0, 1)` and texture coordinate `(u, v)`. -/
def sampleVertex (n : Fin 8388608) (u v : F32) : Vertex :=
  { pos := ⟨⟨false, 127, n⟩, F32.zero, F32.zero⟩
    normal := ⟨F32.zero, F32.zero, F32.one⟩
    texCoord := ⟨u, v⟩ }

/-- The corner sequence of `sampleScene`, written out: the two triangles of
the quad, the triangle of `triMesh`, and the three corners of `uvMesh` with
the texture coordinates `(0, 1 - 0)`, `(1, 1 - 0)` and `(0, 1 - 1)`. -/
def sampleCorners : List Vertex :=
  [sampleVertex 0 F32.zero F32.one, sampleVertex 1 F32.zero F32.one,
   sampleVertex 2 F32.zero F32.one,
   sampleVertex 2 F32.zero F32.one, sampleVertex 1 F32.zero F32.one,
   sampleVertex 0 F32.zero F32.one,
   sampleVertex 1 F32.zero F32.one, sampleVertex 2 F32.zero F32.one,
   sampleVertex 3 F32.zero F32.one,
   sampleVertex 0 F32.zero F32.one, sampleVertex 0 F32.one F32.one,
   sampleVertex 0 F32.zero F32.zero]

/-- The welded buffers of `sampleScene`, written out: six distinct corner
vertices in the order of their first use, the last two differing from the
first in the texture coordinate only. -/
def sampleBuffers : HostBuffers :=
  { hostVerts :=
      [sampleVertex 0 F32.zero F32.one, sampleVertex 1 F32.zero F32.one,
       sampleVertex 2 F32.zero F32.one, sampleVertex 3 F32.zero F32.one,
       sampleVertex 0 F32.one F32.one, sampleVertex 0 F32.zero F32.zero]
    hostIndices := [0, 1, 2, 2, 1, 0, 1, 2, 3, 0, 4, 5] }

/-- A scene whose second mesh lacks normals. -/
def brokenScene : aiScene := { mMeshes := [quadMesh, bareMesh, triMesh] }

/-- A scene with a NaN normal. -/
def nanScene : aiScene := { mMeshes := [nanMesh] }

/-- A vertex with a NaN normal. -/
def nanVertex : Vertex :=
  { pos := ⟨F32.zero, F32.zero, F32.zero⟩
    normal := ⟨F32.qnan, F32.zero, F32.one⟩
    texCoord := ⟨F32.zero, F32.zero⟩ }

/-- A sample device manager: it records the images and the views it was
asked for and hands out their positions in the record as handles. -/
structure SampleManager where
  images : List (Nat × Nat × VkFormat × Nat)
  views : List (Nat × Nat × Nat)
  deriving DecidableEq, Repr

/-- A 4 x 2 RGBA8 texture with a single level. -/
def sampleTexture : Texture2d :=
  { empty := false, format := .FORMAT_RGBA8_UNORM_PACK8, extent_x := 4, extent_y := 2,
    levels := 1, size := 32, data := [] }

/-- The mip chain of a 4 x 2 texture has 3 levels. -/
def sampleMipmaps (t : Texture2d) : Texture2d :=
  { t with levels := 3, size := 44 }

/-- A sample environment: "albedo.ktx" holds `sampleTexture`, "lut.dds" a
texture in a format the loader does not know, every other file loads as an
empty texture. -/
def sampleTextureEnv : TextureEnv SampleManager :=
  { getFileExtension := fun fn =>
      if fn = "albedo.ktx" then "ktx" else if fn = "photo.png" then "png" else "dds"
    load := fun fn =>
      if fn = "albedo.ktx" then sampleTexture
      else if fn = "lut.dds" then { sampleTexture with format := .other 1 }
      else { sampleTexture with empty := true }
    generate_mipmaps := sampleMipmaps
    createImage2D := fun m w h f _ _ mips =>
      .ok m.images.length { m with images := m.images ++ [(w, h, f, mips)] }
    transferHostDataToImage := fun m _ _ _ _ _ => .ok () m
    createImageView2D := fun m image _ base count =>
      .ok m.views.length { m with views := m.views ++ [(image, base, count)] } }

/-- A wrapper as `VMesh` declares it: `depth` is 1, nothing loaded yet. -/
def sampleWrapper : ImageWrapper :=
  { image := 0, imageViews := [], format := .VK_FORMAT_UNDEFINED, width := 0, height := 0,
    depth := 1, mipLevelCount := 0 }

/-- A manager that already holds one image with one view. -/
def sampleManager : SampleManager :=
  { images := [(8, 8, .VK_FORMAT_R32G32_SFLOAT, 1)], views := [(0, 0, 1)] }

/-- Sample matrices: a matrix is the glm expression that built it, so two
matrices are equal only when they were built the same way from the same
arguments.  `given n` is a matrix already in a buffer. -/
inductive MatTerm where
  | given (n : Nat)
  | identity
  | mat4_cast (q : Nat)
  | scale (m : MatTerm) (v : Vec3)
  | mul (a b : MatTerm)
  | translate (m : MatTerm) (v : Vec3)
  | inverse (m : MatTerm)
  | transpose (m : MatTerm)
  deriving DecidableEq, Repr

/-- Sample glm functions: each builds the expression of its call;
quaternions are plain numbers. -/
def sampleGlm : Glm MatTerm Nat :=
  { identity := .identity
    mat4_cast := .mat4_cast
    scale := .scale
    mul := .mul
    translate := .translate
    inverse := .inverse
    transpose := .transpose }

/-- A mesh object with a uniform buffer and the flag set: rotation 7,
scale 2, position `(1, 0, -0)`. -/
def sampleVMesh : VMesh MatTerm Nat :=
  { pVulkanManager := 0
    uPerModelInfo := some { M := .given 0, M_invTrans := .given 1 }
    uniformDataChanged := true
    worldPosition := ⟨F32.one, F32.zero, F32.negZero⟩
    worldRotation := 7
    scale := ⟨false, 128, 0⟩
    vertexBuffer := 0
    indexBuffer := 0
    albedoMap := sampleWrapper
    normalMap := sampleWrapper
    roughnessMap := sampleWrapper
    metalnessMap := sampleWrapper
    aoMap := sampleWrapper
    materialType := 1 }

/-- A sample device: its state is the next free handle, every call
succeeds. -/
def sampleSkyboxEnv : SkyboxEnv Nat Unit :=
  { loadCubemap := fun d _ map => .ok { map with image := d } (d + 1)
    createCubemapImage := fun d _ _ _ _ _ _ _ => .ok (d, d + 1) (d + 2)
    createImageViewCube := fun d _ _ _ _ => .ok d (d + 1)
    createImageViewCubeLevel := fun d _ _ _ _ _ => .ok d (d + 1)
    getDefaultSamplerCreateInfo := fun info => info
    vkCreateSampler := fun d _ => (VK_SUCCESS, d, d + 1)
    vmeshLoad := fun d base _ => .ok base d }

/-- A cube map wrapper of the given format with nothing loaded. -/
def sampleCubeMap (format : VkFormat) : CubeMap :=
  { image := 0, imageMemory := 0, imageView := 0, imageViews := [], sampler := 0,
    format := format, mipLevels := 0 }

/-- A skybox as its constructor leaves it. -/
def sampleSkybox : Skybox Unit :=
  { base := ()
    radianceMap := sampleCubeMap .VK_FORMAT_R32G32_SFLOAT
    specularIrradianceMap := sampleCubeMap .VK_FORMAT_R32G32B32A32_SFLOAT
    diffuseIrradianceMap := sampleCubeMap .VK_FORMAT_R32G32B32A32_SFLOAT
    specMapReady := false
    diffMapReady := false
    shouldSaveSpecMap := false
    shouldSaveDiffMap := false }

/-- What `sampleSkybox` is after loading a radiance and a diffuse map from
disk and no specular map. -/
def sampleSkyboxLoaded : Skybox Unit :=
  { base := ()
    radianceMap := { sampleCubeMap .VK_FORMAT_R32G32_SFLOAT with image := 0 }
    specularIrradianceMap :=
      { image := 1, imageMemory := 2, imageView := 3,
        imageViews := [4, 5, 6, 7, 8, 9, 10, 11, 12, 13], sampler := 14,
        format := .VK_FORMAT_R32G32B32A32_SFLOAT, mipLevels := 10 }
    diffuseIrradianceMap := { sampleCubeMap .VK_FORMAT_R32G32B32A32_SFLOAT with image := 15 }
    specMapReady := false
    diffMapReady := true
    shouldSaveSpecMap := true
    shouldSaveDiffMap := false }

/-- The float with the bit pattern `2^23 + i`: a positive normal number for
every `i` below `254 * 2^23`, a different one for each. -/
def gridFloat (i : Nat) : F32 :=
  { sign := false
    expo := ⟨(1 + i / 8388608) % 256, Nat.mod_lt _ (by decide)⟩
    mant := ⟨i % 8388608, Nat.mod_lt _ (by decide)⟩ }

/-- Vertex `i` of grid mesh `m`. -/
def gridVertex (m i : Nat) : aiVector3D := ⟨gridFloat i, gridFloat m, F32.zero⟩

/-- A mesh of `T` separate triangles: `3 * T` vertices, no two in the same
place, and face `t` on the vertices `3 t`, `3 t + 1`, `3 t + 2`. -/
def gridMesh (T m : Nat) : aiMesh :=
  { mVertices := (List.range (3 * T)).map (gridVertex m)
    mNormals := some ((List.range (3 * T)).map (fun _ => unitZ))
    mTextureCoords0 := some ((List.range (3 * T)).map (fun _ => aiVector3D.zero))
    mFaces := (List.range T).map (fun t => ⟨[3 * t, 3 * t + 1, 3 * t + 2]⟩) }

/-- Three grid meshes, `9 * T` vertices in all, no two in the same place. -/
def gridScene (T : Nat) : aiScene :=
  { mMeshes := [gridMesh T 0, gridMesh T 1, gridMesh T 2] }

/-- The corner that vertex `i` of grid mesh `m` gives. -/
def gridCorner (fsub : F32 → F32 → F32) (m i : Nat) : Vertex :=
  { pos := ⟨gridFloat i, gridFloat m, F32.zero⟩
    normal := ⟨F32.zero, F32.zero, F32.one⟩
    texCoord := ⟨F32.zero, fsub F32.one F32.zero⟩ }

/-- A triangle count per mesh for which the grid scene has `2^32 + 5`
vertices, each mesh staying below `2^31` vertices. -/
def bigT : Nat := 477218589

/-! ## Facts about the comparison -/

theorem F32.feq_zero_negZero : F32.feq F32.zero F32.negZero = true := by decide

theorem F32.feq_qnan_qnan : F32.feq F32.qnan F32.qnan = false := by decide

theorem F32.feq_symm (a b : F32) : F32.feq a b = F32.feq b a := by
  unfold F32.feq
  by_cases h : a = b
  · subst h; rfl
  · have h' : ¬ b = a := fun e => h e.symm
    simp [h, h', Bool.and_comm]

theorem F32.isZero_not_isNaN {a : F32} (h : a.isZero = true) : a.isNaN = false := by
  unfold F32.isZero at h
  unfold F32.isNaN
  simp at h
  simp [h.1]

theorem F32.feq_trans {a b c : F32} (hab : F32.feq a b = true) (hbc : F32.feq b c = true) :
    F32.feq a c = true := by
  unfold F32.feq at *
  simp only [Bool.and_eq_true, Bool.not_eq_true', Bool.or_eq_true, decide_eq_true_eq] at *
  obtain ⟨⟨ha, hb⟩, h1⟩ := hab
  obtain ⟨⟨_, hc⟩, h2⟩ := hbc
  refine ⟨⟨ha, hc⟩, ?_⟩
  rcases h1 with h1 | h1
  · subst h1; exact h2
  · rcases h2 with h2 | h2
    · subst h2; exact Or.inr h1
    · exact Or.inr ⟨h1.1, h2.2⟩

theorem F32.feq_self {a : F32} (h : a.isNaN = false) : F32.feq a a = true := by
  simp [F32.feq, h]

theorem F32.feq_self_iff (a : F32) : F32.feq a a = !a.isNaN := by
  cases h : a.isNaN <;> simp [F32.feq, h]

theorem F32.not_isNaN_of_feq_left {a b : F32} (h : F32.feq a b = true) : a.isNaN = false := by
  unfold F32.feq at h
  simp only [Bool.and_eq_true, Bool.not_eq_true'] at h
  exact h.1.1

theorem Vec3.veq3_symm (a b : Vec3) : Vec3.veq a b = Vec3.veq b a := by
  simp [Vec3.veq, F32.feq_symm a.x, F32.feq_symm a.y, F32.feq_symm a.z]

theorem Vec2.veq2_symm (a b : Vec2) : Vec2.veq a b = Vec2.veq b a := by
  simp [Vec2.veq, F32.feq_symm a.x, F32.feq_symm a.y]

theorem Vec3.veq3_trans {a b c : Vec3} (hab : Vec3.veq a b = true) (hbc : Vec3.veq b c = true) :
    Vec3.veq a c = true := by
  unfold Vec3.veq at *
  simp only [Bool.and_eq_true] at *
  exact ⟨⟨F32.feq_trans hab.1.1 hbc.1.1, F32.feq_trans hab.1.2 hbc.1.2⟩,
    F32.feq_trans hab.2 hbc.2⟩

theorem Vec2.veq2_trans {a b c : Vec2} (hab : Vec2.veq a b = true) (hbc : Vec2.veq b c = true) :
    Vec2.veq a c = true := by
  unfold Vec2.veq at *
  simp only [Bool.and_eq_true] at *
  exact ⟨F32.feq_trans hab.1 hbc.1, F32.feq_trans hab.2 hbc.2⟩

theorem Vec3.veq3_self_iff (a : Vec3) : Vec3.veq a a = !a.hasNaN := by
  simp [Vec3.veq, Vec3.hasNaN, F32.feq_self_iff, Bool.and_assoc]

theorem Vec2.veq2_self_iff (a : Vec2) : Vec2.veq a a = !a.hasNaN := by
  simp [Vec2.veq, Vec2.hasNaN, F32.feq_self_iff]

theorem Vertex.veq_symm (a b : Vertex) : Vertex.veq a b = Vertex.veq b a := by
  simp [Vertex.veq, Vec3.veq3_symm a.pos, Vec3.veq3_symm a.normal, Vec2.veq2_symm a.texCoord]

theorem Vertex.veq_trans {a b c : Vertex} (hab : Vertex.veq a b = true)
    (hbc : Vertex.veq b c = true) : Vertex.veq a c = true := by
  unfold Vertex.veq at *
  simp only [Bool.and_eq_true] at *
  exact ⟨⟨Vec3.veq3_trans hab.1.1 hbc.1.1, Vec3.veq3_trans hab.1.2 hbc.1.2⟩,
    Vec2.veq2_trans hab.2 hbc.2⟩

theorem Vertex.veq_self_iff (a : Vertex) : Vertex.veq a a = !a.hasNaN := by
  simp [Vertex.veq, Vertex.hasNaN, Vec3.veq3_self_iff, Vec2.veq2_self_iff, Bool.and_assoc]

theorem Vertex.veq_self {a : Vertex} (h : a.hasNaN = false) : Vertex.veq a a = true := by
  rw [Vertex.veq_self_iff, h]; rfl

theorem Vertex.not_hasNaN_of_veq_left {a b : Vertex} (h : Vertex.veq a b = true) :
    a.hasNaN = false := by
  have h1 : Vertex.veq a a = true := Vertex.veq_trans h (by rw [Vertex.veq_symm]; exact h)
  rw [Vertex.veq_self_iff] at h1
  simpa using h1

theorem Vertex.not_hasNaN_of_veq_right {a b : Vertex} (h : Vertex.veq a b = true) :
    b.hasNaN = false :=
  Vertex.not_hasNaN_of_veq_left (by rw [Vertex.veq_symm]; exact h)


/-! ## The loops of the loader run the welding step over the corner sequence -/

theorem weld_append (st : WeldState) (cs ds : List Vertex) :
    weld st (cs ++ ds) = weld (weld st cs) ds := by
  simp [weld, List.foldl_append]

theorem cornerBody_eq (fsub : F32 → F32 → F32) (m : aiMesh) (ns ts : List aiVector3D)
    (hn : m.mNormals = some ns) (ht : m.mTextureCoords0 = some ts)
    (hnl : ns.length = m.mVertices.length) (htl : ts.length = m.mVertices.length)
    (st : WeldState) (idx : Nat) (h : idx < m.mVertices.length) :
    cornerBody fsub m.mVertices ns ts st idx = some (weldVertex st (cornerOf fsub m idx)) := by
  have h1 : idx < ns.length := by omega
  have h2 : idx < ts.length := by omega
  simp [cornerBody, cornerOf, makeVertex, hn, ht, List.getElem?_eq_getElem, h, h1, h2,
    List.getD_eq_getElem?_getD]

theorem cornerLoop_eq (fsub : F32 → F32 → F32) (m : aiMesh) (ns ts : List aiVector3D)
    (hn : m.mNormals = some ns) (ht : m.mTextureCoords0 = some ts)
    (hnl : ns.length = m.mVertices.length) (htl : ts.length = m.mVertices.length) :
    ∀ (idxs : List Nat) (st : WeldState), (∀ idx ∈ idxs, idx < m.mVertices.length) →
      cornerLoop fsub m.mVertices ns ts idxs st
        = some (weld st (idxs.map (cornerOf fsub m)))
  | [], st, _ => rfl
  | idx :: rest, st, h => by
    have h0 : idx < m.mVertices.length := h idx (List.mem_cons_self _ _)
    have hr : ∀ i ∈ rest, i < m.mVertices.length := fun i hi => h i (List.mem_cons_of_mem _ hi)
    rw [cornerLoop, cornerBody_eq fsub m ns ts hn ht hnl htl st idx h0]
    simp only
    rw [cornerLoop_eq fsub m ns ts hn ht hnl htl rest _ hr]
    simp [weld]

theorem faceLoop_eq (fsub : F32 → F32 → F32) (m : aiMesh) (ns ts : List aiVector3D)
    (hn : m.mNormals = some ns) (ht : m.mTextureCoords0 = some ts)
    (hnl : ns.length = m.mVertices.length) (htl : ts.length = m.mVertices.length) :
    ∀ (faces : List aiFace) (st : WeldState),
      (∀ f ∈ faces, ∀ idx ∈ f.mIndices, idx < m.mVertices.length) →
      faceLoop fsub m.mVertices ns ts faces st
        = some (weld st ((faces.filter (fun f => f.mIndices.length == 3)).flatMap
            (fun f => f.mIndices.map (cornerOf fsub m))))
  | [], st, _ => rfl
  | face :: rest, st, h => by
    have hr : ∀ f ∈ rest, ∀ idx ∈ f.mIndices, idx < m.mVertices.length :=
      fun f hf => h f (List.mem_cons_of_mem _ hf)
    rw [faceLoop]
    by_cases h3 : face.mIndices.length = 3
    · rw [if_neg (by simpa using h3),
        cornerLoop_eq fsub m ns ts hn ht hnl htl face.mIndices st
          (h face (List.mem_cons_self _ _))]
      simp only
      rw [faceLoop_eq fsub m ns ts hn ht hnl htl rest _ hr]
      simp [List.filter_cons, h3, weld_append]
    · rw [if_pos h3, faceLoop_eq fsub m ns ts hn ht hnl htl rest st hr]
      simp [List.filter_cons, h3]

theorem meshLoop_cons_of_has (fsub : F32 → F32 → F32) (mesh : aiMesh) (rest : List aiMesh)
    (st : WeldState) (hc : mesh.Consistent) (ha : mesh.hasNormalsAndUVs = true) :
    meshLoop fsub (mesh :: rest) st = meshLoop fsub rest (weld st (meshCorners fsub mesh)) := by
  obtain ⟨hnl, htl, hidx⟩ := hc
  unfold aiMesh.hasNormalsAndUVs at ha
  rw [Bool.and_eq_true, Option.isSome_iff_exists, Option.isSome_iff_exists] at ha
  obtain ⟨⟨ns, hn⟩, ⟨ts, ht⟩⟩ := ha
  rw [meshLoop, hn, ht]
  simp only
  rw [faceLoop_eq fsub mesh ns ts hn ht (hnl ns hn) (htl ts ht) mesh.mFaces st hidx]
  simp only [meshCorners, triangles]

theorem meshLoop_cons_of_lacks (fsub : F32 → F32 → F32) (mesh : aiMesh) (rest : List aiMesh)
    (st : WeldState) (ha : mesh.hasNormalsAndUVs = false) :
    meshLoop fsub (mesh :: rest) st = .threw missingAttributesMsg st := by
  unfold aiMesh.hasNormalsAndUVs at ha
  rw [meshLoop]
  cases hn : mesh.mNormals with
  | none => rfl
  | some ns =>
    cases ht : mesh.mTextureCoords0 with
    | none => rfl
    | some ts => simp [hn, ht] at ha

theorem meshLoop_eq (fsub : F32 → F32 → F32) :
    ∀ (meshes : List aiMesh) (st : WeldState),
      (∀ m ∈ meshes, m.Consistent) → (∀ m ∈ meshes, m.hasNormalsAndUVs = true) →
      meshLoop fsub meshes st = .returned (weld st (meshes.flatMap (meshCorners fsub)))
  | [], st, _, _ => rfl
  | mesh :: rest, st, hc, ha => by
    have hc0 := hc mesh (List.mem_cons_self _ _)
    have ha0 := ha mesh (List.mem_cons_self _ _)
    rw [meshLoop_cons_of_has fsub mesh rest st hc0 ha0,
      meshLoop_eq fsub rest _ (fun m hm => hc m (List.mem_cons_of_mem _ hm))
        (fun m hm => ha m (List.mem_cons_of_mem _ hm))]
    simp [weld_append]

/-! ## The welding invariant -/

theorem distinctCorners_concat (cs : List Vertex) (c : Vertex) :
    distinctCorners (cs ++ [c]) =
      if cs.any (fun u => Vertex.veq u c) then distinctCorners cs
      else distinctCorners cs ++ [c] := by
  unfold distinctCorners
  have h1 : (List.range cs.length).filterMap (fun p =>
        match (cs ++ [c])[p]? with
        | some d => if ((cs ++ [c]).take p).any (fun u => Vertex.veq u d) then none else some d
        | none => none)
      = (List.range cs.length).filterMap (fun p =>
        match cs[p]? with
        | some d => if (cs.take p).any (fun u => Vertex.veq u d) then none else some d
        | none => none) := by
    apply List.filterMap_congr
    intro p hp
    have hp' : p < cs.length := List.mem_range.mp hp
    rw [List.getElem?_append_left hp', List.take_append_of_le_length (Nat.le_of_lt hp')]
  have h2 : (cs ++ [c])[cs.length]? = some c := by simp
  have h3 : (cs ++ [c]).take cs.length = cs := by simp
  rw [List.length_append, List.length_singleton, List.range_succ, List.filterMap_append, h1]
  simp only [List.filterMap_cons, List.filterMap_nil, h2, h3]
  cases cs.any (fun u => Vertex.veq u c) <;> simp

theorem weldVertex_of_none {st : WeldState} {c : Vertex}
    (h : lutFind st.vert2IdxLut c = none) :
    weldVertex st c =
      { vert2IdxLut := st.vert2IdxLut ++ [(c, st.hostVerts.length % UINT32_SIZE)]
        hostVerts := st.hostVerts ++ [c]
        hostIndices := st.hostIndices ++ [st.hostVerts.length % UINT32_SIZE] } := by
  simp [weldVertex, lutAssign, h]

theorem weldVertex_of_some {st : WeldState} {c : Vertex} {e : Vertex × Nat}
    (h : lutFind st.vert2IdxLut c = some e) :
    weldVertex st c = { st with hostIndices := st.hostIndices ++ [e.2] } := by
  simp [weldVertex, h]

theorem WeldInv.init : WeldInv [] WeldState.empty [] where
  lut_keys := rfl
  lut_vals := by simp [WeldState.empty]
  verts := rfl
  verts_mem := by simp [WeldState.empty]
  pairwise := List.Pairwise.nil
  indices := rfl
  raw_len := rfl
  raw_ok := by simp
  covered := by simp [WeldState.empty]
  growth := by simp

theorem WeldInv.covers {cs : List Vertex} {st : WeldState} {raw : List Nat}
    (h : WeldInv cs st raw) {u : Vertex} (hu : u ∈ cs) :
    ∃ v ∈ st.hostVerts, v = u ∨ Vertex.veq v u = true := by
  obtain ⟨p, hp⟩ := List.mem_iff_getElem?.mp hu
  have hlt : p < cs.length := (List.getElem?_eq_some.mp hp).1
  have hpr : p < raw.length := by rw [h.raw_len]; exact hlt
  have hr : raw[p]? = some raw[p] := List.getElem?_eq_getElem hpr
  obtain ⟨v, hv, hvu⟩ := h.raw_ok p _ u hr hp
  exact ⟨v, List.mem_iff_getElem?.mpr ⟨_, hv⟩, hvu⟩

theorem WeldInv.step_none {cs : List Vertex} {st : WeldState} {raw : List Nat}
    (h : WeldInv cs st raw) (c : Vertex) (hf : lutFind st.vert2IdxLut c = none) :
    WeldInv (cs ++ [c]) (weldVertex st c) (raw ++ [st.hostVerts.length]) := by
  have hlen : st.vert2IdxLut.length = st.hostVerts.length := by
    rw [← h.lut_keys, List.length_map]
  have hnone : ∀ u ∈ st.hostVerts, Vertex.veq u c = false := by
    intro u hu
    rw [← h.lut_keys, List.mem_map] at hu
    obtain ⟨e, he, rfl⟩ := hu
    have := (List.find?_eq_none.mp hf) e he
    simpa using this
  have hall : ∀ u ∈ cs, Vertex.veq u c = false := by
    intro u hu
    obtain ⟨v, hv, hvu⟩ := h.covers hu
    cases huc : Vertex.veq u c with
    | false => rfl
    | true =>
      have hvc : Vertex.veq v c = true := by
        rcases hvu with rfl | hvu
        · exact huc
        · exact Vertex.veq_trans hvu huc
      rw [hnone v hv] at hvc
      exact absurd hvc (by simp)
  rw [weldVertex_of_none hf]
  refine ⟨?_, ?_, ?_, ?_, ?_, ?_, ?_, ?_, ?_, ?_⟩
  · simp [h.lut_keys]
  · intro j e hj
    by_cases hjl : j < st.vert2IdxLut.length
    · simp only [List.getElem?_append_left hjl] at hj
      exact h.lut_vals j e hj
    · have hjl' : st.vert2IdxLut.length ≤ j := Nat.le_of_not_lt hjl
      simp only [List.getElem?_append_right hjl'] at hj
      have hj0 : j - st.vert2IdxLut.length = 0 := by
        by_contra hne
        rw [List.getElem?_eq_none (by simp; omega)] at hj
        exact absurd hj (by simp)
      rw [hj0] at hj
      simp at hj
      have : j = st.hostVerts.length := by omega
      rw [← hj, this]
  · have hany : cs.any (fun u => Vertex.veq u c) = false := by
      rw [List.any_eq_false]
      intro u hu
      simp [hall u hu]
    simp only [distinctCorners_concat, hany, h.verts]
    simp
  · intro v hv
    rcases List.mem_append.mp hv with hv | hv
    · exact List.mem_append_left _ (h.verts_mem v hv)
    · exact List.mem_append_right _ hv
  · rw [List.pairwise_append]
    refine ⟨h.pairwise, List.pairwise_singleton _ _, ?_⟩
    intro a ha b hb
    rw [List.mem_singleton] at hb
    rw [hb]; exact hnone a ha
  · simp [h.indices]
  · simp [h.raw_len]
  · intro p j d hp hd
    by_cases hpl : p < raw.length
    · rw [List.getElem?_append_left hpl] at hp
      rw [List.getElem?_append_left (by rw [← h.raw_len]; exact hpl)] at hd
      obtain ⟨v, hv, hvd⟩ := h.raw_ok p j d hp hd
      refine ⟨v, ?_, hvd⟩
      rw [List.getElem?_append_left (List.getElem?_eq_some.mp hv).1]
      exact hv
    · have hpl' : raw.length ≤ p := Nat.le_of_not_lt hpl
      have hp1 : p < (raw ++ [st.hostVerts.length]).length := (List.getElem?_eq_some.mp hp).1
      have hpe : p = raw.length := by simp at hp1; omega
      subst hpe
      simp at hp
      rw [h.raw_len] at hd
      simp at hd
      subst hp; subst hd
      exact ⟨c, by simp, Or.inl rfl⟩
  · intro j hj
    simp only [List.length_append, List.length_singleton] at hj
    by_cases hjl : j < st.hostVerts.length
    · exact List.mem_append_left _ (h.covered j hjl)
    · have : j = st.hostVerts.length := by omega
      rw [this]; simp
  · intro p j hp k hk
    by_cases hpl : p < raw.length
    · rw [List.getElem?_append_left hpl] at hp
      rw [List.take_append_of_le_length (Nat.le_of_lt hpl)]
      exact h.growth p j hp k hk
    · have hp1 : p < (raw ++ [st.hostVerts.length]).length := (List.getElem?_eq_some.mp hp).1
      have hpe : p = raw.length := by simp at hp1; omega
      subst hpe
      simp at hp
      subst hp
      rw [List.take_append_of_le_length (Nat.le_refl _), List.take_length]
      exact h.covered k hk

theorem WeldInv.step_some {cs : List Vertex} {st : WeldState} {raw : List Nat}
    (h : WeldInv cs st raw) (c : Vertex) (e : Vertex × Nat)
    (hf : lutFind st.vert2IdxLut c = some e) :
    ∃ j, e.2 = j % UINT32_SIZE ∧ WeldInv (cs ++ [c]) (weldVertex st c) (raw ++ [j]) := by
  have hmem : e ∈ st.vert2IdxLut := List.mem_of_find?_eq_some hf
  have hveq : Vertex.veq e.1 c = true := by
    have := List.find?_some hf
    simpa using this
  obtain ⟨j, hj⟩ := List.mem_iff_getElem?.mp hmem
  have hval : e.2 = j % UINT32_SIZE := h.lut_vals j e hj
  have hvj : st.hostVerts[j]? = some e.1 := by
    rw [← h.lut_keys, List.getElem?_map, hj]; rfl
  have hjlt : j < st.hostVerts.length := (List.getElem?_eq_some.mp hvj).1
  have he1 : e.1 ∈ st.hostVerts := List.mem_iff_getElem?.mpr ⟨j, hvj⟩
  refine ⟨j, hval, ?_⟩
  rw [weldVertex_of_some hf]
  refine ⟨h.lut_keys, h.lut_vals, ?_, ?_, h.pairwise, ?_, ?_, ?_, fun i hi => List.mem_append_left _ (h.covered i hi), ?_⟩
  · have hany : cs.any (fun u => Vertex.veq u c) = true := by
      rw [List.any_eq_true]
      exact ⟨e.1, h.verts_mem _ he1, hveq⟩
    simp only [distinctCorners_concat, hany, h.verts]
    simp
  · intro v hv
    exact List.mem_append_left _ (h.verts_mem v hv)
  · simp [h.indices, hval]
  · simp [h.raw_len]
  · intro p i d hp hd
    by_cases hpl : p < raw.length
    · rw [List.getElem?_append_left hpl] at hp
      rw [List.getElem?_append_left (by rw [← h.raw_len]; exact hpl)] at hd
      exact h.raw_ok p i d hp hd
    · have hp1 : p < (raw ++ [j]).length := (List.getElem?_eq_some.mp hp).1
      have hpe : p = raw.length := by simp at hp1; omega
      subst hpe
      simp at hp
      rw [h.raw_len] at hd
      simp at hd
      subst hp; subst hd
      exact ⟨e.1, hvj, Or.inr hveq⟩
  · intro p i hp k hk
    by_cases hpl : p < raw.length
    · rw [List.getElem?_append_left hpl] at hp
      rw [List.take_append_of_le_length (Nat.le_of_lt hpl)]
      exact h.growth p i hp k hk
    · have hp1 : p < (raw ++ [j]).length := (List.getElem?_eq_some.mp hp).1
      have hpe : p = raw.length := by simp at hp1; omega
      subst hpe
      simp at hp
      subst hp
      rw [List.take_append_of_le_length (Nat.le_refl _), List.take_length]
      exact h.covered k (by omega)

theorem WeldInv.step {cs : List Vertex} {st : WeldState} {raw : List Nat}
    (h : WeldInv cs st raw) (c : Vertex) :
    ∃ raw1, WeldInv (cs ++ [c]) (weldVertex st c) raw1 := by
  cases hf : lutFind st.vert2IdxLut c with
  | none => exact ⟨_, h.step_none c hf⟩
  | some e =>
    obtain ⟨j, _, hj⟩ := h.step_some c e hf
    exact ⟨_, hj⟩

theorem weld_inv (cs : List Vertex) :
    ∃ raw, WeldInv cs (weld WeldState.empty cs) raw := by
  induction cs using List.reverseRecOn with
  | nil => exact ⟨[], WeldInv.init⟩
  | append_singleton cs c ih =>
    obtain ⟨raw, hraw⟩ := ih
    rw [weld_append]
    exact hraw.step c

/-! ## What the loader returns -/

theorem meshLoop_append_lacks (fsub : F32 → F32 → F32) :
    ∀ (pre : List aiMesh) (bad : aiMesh) (rest : List aiMesh) (st : WeldState),
      (∀ m ∈ pre, m.Consistent) → (∀ m ∈ pre, m.hasNormalsAndUVs = true) →
      bad.hasNormalsAndUVs = false →
      meshLoop fsub (pre ++ bad :: rest) st
        = .threw missingAttributesMsg (weld st (pre.flatMap (meshCorners fsub)))
  | [], bad, rest, st, _, _, hb => by
    simpa [weld] using meshLoop_cons_of_lacks fsub bad rest st hb
  | mesh :: pre, bad, rest, st, hc, ha, hb => by
    rw [List.cons_append, meshLoop_cons_of_has fsub mesh _ st (hc mesh (List.mem_cons_self _ _))
      (ha mesh (List.mem_cons_self _ _)),
      meshLoop_append_lacks fsub pre bad rest _ (fun m hm => hc m (List.mem_cons_of_mem _ hm))
        (fun m hm => ha m (List.mem_cons_of_mem _ hm)) hb]
    simp [weld_append]

theorem meshLoop_threw_iff (fsub : F32 → F32 → F32) :
    ∀ (meshes : List aiMesh) (st : WeldState), (∀ m ∈ meshes, m.Consistent) →
      ((∃ what st1, meshLoop fsub meshes st = .threw what st1) ↔
        ∃ m ∈ meshes, m.hasNormalsAndUVs = false)
  | [], st, _ => by simp [meshLoop]
  | mesh :: rest, st, hc => by
    cases ha : mesh.hasNormalsAndUVs with
    | false =>
      rw [meshLoop_cons_of_lacks fsub mesh rest st ha]
      exact ⟨fun _ => ⟨mesh, List.mem_cons_self _ _, ha⟩, fun _ => ⟨_, _, rfl⟩⟩
    | true =>
      rw [meshLoop_cons_of_has fsub mesh rest st (hc mesh (List.mem_cons_self _ _)) ha,
        meshLoop_threw_iff fsub rest _ (fun m hm => hc m (List.mem_cons_of_mem _ hm))]
      constructor
      · rintro ⟨m, hm, hl⟩
        exact ⟨m, List.mem_cons_of_mem _ hm, hl⟩
      · rintro ⟨m, hm, hl⟩
        rcases List.mem_cons.mp hm with rfl | hm
        · rw [ha] at hl; exact absurd hl (by simp)
        · exact ⟨m, hm, hl⟩

theorem loadMesh_returned (ReadFile : String → Option aiScene) (fsub : F32 → F32 → F32)
    (modelFileName : String) (scene : aiScene) (hread : ReadFile modelFileName = some scene)
    (hcons : scene.Consistent) (hattrs : scene.hasNormalsAndUVs = true) :
    loadMeshIntoHostBuffers ReadFile fsub modelFileName [] []
      = .returned (weld WeldState.empty (sceneCorners fsub scene)).buffers := by
  have ha : ∀ m ∈ scene.mMeshes, m.hasNormalsAndUVs = true := by
    simpa [aiScene.hasNormalsAndUVs] using hattrs
  simp only [loadMeshIntoHostBuffers, hread]
  rw [meshLoop_eq fsub scene.mMeshes _ hcons ha]
  rfl

theorem sceneCorners_length (fsub : F32 → F32 → F32) (scene : aiScene) :
    (sceneCorners fsub scene).length = 3 * triangleCount scene := by
  have hmesh : ∀ m : aiMesh, (meshCorners fsub m).length = 3 * (triangles m).length := by
    intro m
    unfold meshCorners triangles
    induction m.mFaces with
    | nil => rfl
    | cons f fs ih =>
      by_cases h3 : f.mIndices.length = 3
      · simp only [List.filter_cons, beq_iff_eq, h3, if_true, List.flatMap_cons,
          List.length_append, List.length_map, List.length_cons, ih]
        omega
      · simpa [List.filter_cons, h3] using ih
  unfold sceneCorners triangleCount
  induction scene.mMeshes with
  | nil => rfl
  | cons m ms ih =>
    simp only [List.flatMap_cons, List.length_append, List.map_cons, List.sum_cons, ih, hmesh]
    omega

theorem WeldInv.raw_lt {cs : List Vertex} {st : WeldState} {raw : List Nat}
    (h : WeldInv cs st raw) {j : Nat} (hj : j ∈ raw) : j < st.hostVerts.length := by
  obtain ⟨p, hp⟩ := List.mem_iff_getElem?.mp hj
  have hpl : p < cs.length := by rw [← h.raw_len]; exact (List.getElem?_eq_some.mp hp).1
  obtain ⟨v, hv, _⟩ := h.raw_ok p j cs[p] hp (List.getElem?_eq_getElem hpl)
  exact (List.getElem?_eq_some.mp hv).1

theorem WeldInv.indices_eq_raw {cs : List Vertex} {st : WeldState} {raw : List Nat}
    (h : WeldInv cs st raw) (hsize : st.hostVerts.length ≤ UINT32_SIZE) :
    st.hostIndices = raw := by
  rw [h.indices]
  conv_rhs => rw [← List.map_id raw]
  apply List.map_congr_left
  intro j hj
  have := h.raw_lt hj
  exact Nat.mod_eq_of_lt (by omega)

theorem WeldInv.index_lt {cs : List Vertex} {st : WeldState} {raw : List Nat}
    (h : WeldInv cs st raw) {idx : Nat} (hidx : idx ∈ st.hostIndices) : idx < UINT32_SIZE := by
  rw [h.indices, List.mem_map] at hidx
  obtain ⟨j, _, rfl⟩ := hidx
  exact Nat.mod_lt _ (by decide)

/-! ## Counting the distinct corners by value -/

theorem F32.feq_iff_canon {a b : F32} (ha : a.isNaN = false) (hb : b.isNaN = false) :
    F32.feq a b = true ↔ a.canon = b.canon := by
  have hzero : F32.zero.isZero = true := by decide
  unfold F32.feq F32.canon
  cases hza : a.isZero <;> cases hzb : b.isZero
  · simp [ha, hb]
  · have h1 : ¬ a = b := fun h => by rw [h, hzb] at hza; exact absurd hza (by simp)
    have h2 : ¬ a = F32.zero := fun h => by rw [h, hzero] at hza; exact absurd hza (by simp)
    simp [ha, hb, h1, h2]
  · have h1 : ¬ a = b := fun h => by rw [h, hzb] at hza; exact absurd hza (by simp)
    have h2 : ¬ F32.zero = b := fun h => by rw [← h, hzero] at hzb; exact absurd hzb (by simp)
    simp [ha, hb, h1, h2]
  · simp [ha, hb]

theorem Vertex.veq_iff_canon {a b : Vertex} (ha : a.hasNaN = false) (hb : b.hasNaN = false) :
    Vertex.veq a b = true ↔ a.canon = b.canon := by
  simp only [Vertex.hasNaN, Vec3.hasNaN, Vec2.hasNaN, Bool.or_eq_false_iff] at ha hb
  obtain ⟨⟨⟨⟨a1, a2⟩, a3⟩, ⟨⟨a4, a5⟩, a6⟩⟩, ⟨a7, a8⟩⟩ := ha
  obtain ⟨⟨⟨⟨b1, b2⟩, b3⟩, ⟨⟨b4, b5⟩, b6⟩⟩, ⟨b7, b8⟩⟩ := hb
  simp only [Vertex.veq, Vec3.veq, Vec2.veq, Bool.and_eq_true, Vertex.canon, Vec3.canon,
    Vec2.canon, Vertex.mk.injEq, Vec3.mk.injEq, Vec2.mk.injEq,
    F32.feq_iff_canon a1 b1, F32.feq_iff_canon a2 b2, F32.feq_iff_canon a3 b3,
    F32.feq_iff_canon a4 b4, F32.feq_iff_canon a5 b5, F32.feq_iff_canon a6 b6,
    F32.feq_iff_canon a7 b7, F32.feq_iff_canon a8 b8, and_assoc]

theorem distinctCorners_length_eq_card (cs : List Vertex)
    (hnan : ∀ c ∈ cs, c.hasNaN = false) :
    (distinctCorners cs).length = (cs.map Vertex.canon).toFinset.card := by
  induction cs using List.reverseRecOn with
  | nil => rfl
  | append_singleton cs c ih =>
    have hcs : ∀ u ∈ cs, u.hasNaN = false := fun u hu => hnan u (List.mem_append_left _ hu)
    have hc : c.hasNaN = false := hnan c (List.mem_append_right _ (List.mem_singleton_self c))
    have hmem : cs.any (fun u => Vertex.veq u c) = true ↔
        c.canon ∈ (cs.map Vertex.canon).toFinset := by
      rw [List.any_eq_true, List.mem_toFinset, List.mem_map]
      constructor
      · rintro ⟨u, hu, huc⟩
        exact ⟨u, hu, (Vertex.veq_iff_canon (hcs u hu) hc).mp huc⟩
      · rintro ⟨u, hu, huc⟩
        exact ⟨u, hu, (Vertex.veq_iff_canon (hcs u hu) hc).mpr huc⟩
    have hfin : ((cs ++ [c]).map Vertex.canon).toFinset
        = insert c.canon (cs.map Vertex.canon).toFinset := by
      ext x
      simp only [List.map_append, List.map_cons, List.map_nil, List.mem_toFinset,
        List.mem_append, List.mem_singleton, Finset.mem_insert]
      exact Or.comm
    rw [distinctCorners_concat, hfin]
    by_cases hany : cs.any (fun u => Vertex.veq u c) = true
    · rw [if_pos hany, Finset.insert_eq_of_mem (hmem.mp hany)]
      exact ih hcs
    · rw [if_neg hany, Finset.card_insert_of_not_mem (fun h => hany (hmem.mpr h)),
        List.length_append, List.length_singleton, ih hcs]

/-! ## The claims about `loadMeshIntoHostBuffers` -/

/-- C1, as amended.  Welding round trip: the corner sequence of a scene is
taken mesh by mesh, face by face over the faces with exactly 3 indices,
corner by corner, the corner with source index `idx` being the vertex
`(vertices[idx], normals[idx], (texCoords[idx].x, 1 - texCoords[idx].y))`.
For an imported scene in which every mesh has normals and UVs and whose
triangular faces have at most 2^32 distinct corner vertices, the call with
empty buffers returns, `hostIndices` has one entry per corner (3 per 3-index
face), every entry is a valid position of `hostVerts`, and the vertex stored
there equals the corner under `operator==` when the corner has no NaN
component and is the corner itself, component for component, when it has
one. -/
theorem loadMesh_roundtrip (ReadFile : String → Option aiScene) (fsub : F32 → F32 → F32)
    (modelFileName : String) (scene : aiScene) (hread : ReadFile modelFileName = some scene)
    (hcons : scene.Consistent) (hattrs : scene.hasNormalsAndUVs = true)
    (hsize : (distinctCorners (sceneCorners fsub scene)).length ≤ UINT32_SIZE) :
    sceneCorners fsub scene =
      scene.mMeshes.flatMap (fun mesh =>
        (mesh.mFaces.filter (fun face => face.mIndices.length == 3)).flatMap (fun face =>
          face.mIndices.map (fun idx =>
            ({ pos :=
                { x := (mesh.mVertices.getD idx aiVector3D.zero).x
                  y := (mesh.mVertices.getD idx aiVector3D.zero).y
                  z := (mesh.mVertices.getD idx aiVector3D.zero).z }
               normal :=
                { x := ((mesh.mNormals.getD []).getD idx aiVector3D.zero).x
                  y := ((mesh.mNormals.getD []).getD idx aiVector3D.zero).y
                  z := ((mesh.mNormals.getD []).getD idx aiVector3D.zero).z }
               texCoord :=
                { x := ((mesh.mTextureCoords0.getD []).getD idx aiVector3D.zero).x
                  y := fsub F32.one
                    ((mesh.mTextureCoords0.getD []).getD idx aiVector3D.zero).y } }
              : Vertex)))) ∧
    ∃ b, loadMeshIntoHostBuffers ReadFile fsub modelFileName [] [] = .returned b ∧
      b.hostIndices.length = (sceneCorners fsub scene).length ∧
      b.hostIndices.length = 3 * triangleCount scene ∧
      ∀ (i : Nat) (c : Vertex), (sceneCorners fsub scene)[i]? = some c →
        ∃ idx v, b.hostIndices[i]? = some idx ∧ b.hostVerts[idx]? = some v ∧
          (if c.hasNaN then v = c else Vertex.veq v c = true) := by
  obtain ⟨raw, hinv⟩ := weld_inv (sceneCorners fsub scene)
  refine ⟨rfl, _, loadMesh_returned ReadFile fsub modelFileName scene hread hcons hattrs, ?_⟩
  have hsz : (weld WeldState.empty (sceneCorners fsub scene)).hostVerts.length ≤ UINT32_SIZE := by
    rw [hinv.verts]; exact hsize
  have hraw := hinv.indices_eq_raw hsz
  have hlen : (weld WeldState.empty (sceneCorners fsub scene)).buffers.hostIndices.length
      = (sceneCorners fsub scene).length := by
    show (weld WeldState.empty (sceneCorners fsub scene)).hostIndices.length = _
    rw [hraw, hinv.raw_len]
  refine ⟨hlen, by rw [hlen, sceneCorners_length], ?_⟩
  intro i c hc
  have hil : i < raw.length := by rw [hinv.raw_len]; exact (List.getElem?_eq_some.mp hc).1
  obtain ⟨v, hv, hvc⟩ := hinv.raw_ok i raw[i] c (List.getElem?_eq_getElem hil) hc
  refine ⟨raw[i], v, ?_, hv, ?_⟩
  · show (weld WeldState.empty (sceneCorners fsub scene)).hostIndices[i]? = _
    rw [hraw]; exact List.getElem?_eq_getElem hil
  · cases hn : c.hasNaN with
    | true =>
      rcases hvc with hvc | hvc
      · simpa using hvc
      · rw [Vertex.not_hasNaN_of_veq_right hvc] at hn
        exact absurd hn (by simp)
    | false =>
      rcases hvc with hvc | hvc
      · subst hvc; simpa using Vertex.veq_self hn
      · simpa using hvc

/-- C2.  Deduplication: the corner vertices of the triangular faces are the
vertices `(vertices[idx], normals[idx], (texCoords[idx].x, 1 -
texCoords[idx].y))` over the indices of the faces with exactly 3 indices,
mesh by mesh.  For an imported scene in which every mesh has
normals and UVs, the call with empty buffers returns and no two different
positions of `hostVerts` hold vertices that are equal under `operator==`,
whatever meshes they came from; the size of `hostVerts` is the number of
distinct corner vertices of the triangular faces: the number of corners that
are `==` to no earlier corner, which for corners without NaN is the number of
different corner values, the two zeros counted as one value. -/
theorem loadMesh_dedup (ReadFile : String → Option aiScene) (fsub : F32 → F32 → F32)
    (modelFileName : String) (scene : aiScene) (hread : ReadFile modelFileName = some scene)
    (hcons : scene.Consistent) (hattrs : scene.hasNormalsAndUVs = true) :
    sceneCorners fsub scene =
      scene.mMeshes.flatMap (fun mesh =>
        (mesh.mFaces.filter (fun face => face.mIndices.length == 3)).flatMap (fun face =>
          face.mIndices.map (fun idx =>
            ({ pos :=
                { x := (mesh.mVertices.getD idx aiVector3D.zero).x
                  y := (mesh.mVertices.getD idx aiVector3D.zero).y
                  z := (mesh.mVertices.getD idx aiVector3D.zero).z }
               normal :=
                { x := ((mesh.mNormals.getD []).getD idx aiVector3D.zero).x
                  y := ((mesh.mNormals.getD []).getD idx aiVector3D.zero).y
                  z := ((mesh.mNormals.getD []).getD idx aiVector3D.zero).z }
               texCoord :=
                { x := ((mesh.mTextureCoords0.getD []).getD idx aiVector3D.zero).x
                  y := fsub F32.one
                    ((mesh.mTextureCoords0.getD []).getD idx aiVector3D.zero).y } }
              : Vertex)))) ∧
    ∃ b, loadMeshIntoHostBuffers ReadFile fsub modelFileName [] [] = .returned b ∧
      (∀ (i j : Nat) (u v : Vertex), i ≠ j → b.hostVerts[i]? = some u →
        b.hostVerts[j]? = some v → Vertex.veq u v = false) ∧
      b.hostVerts.length = (distinctCorners (sceneCorners fsub scene)).length ∧
      ((∀ c ∈ sceneCorners fsub scene, c.hasNaN = false) →
        b.hostVerts.length = ((sceneCorners fsub scene).map Vertex.canon).toFinset.card) := by
  obtain ⟨raw, hinv⟩ := weld_inv (sceneCorners fsub scene)
  refine ⟨rfl, _, loadMesh_returned ReadFile fsub modelFileName scene hread hcons hattrs,
    ?_, ?_, ?_⟩
  rotate_left 2
  · intro hnan
    show (weld WeldState.empty (sceneCorners fsub scene)).hostVerts.length = _
    rw [hinv.verts, distinctCorners_length_eq_card _ hnan]
  · have hpw := List.pairwise_iff_getElem.mp hinv.pairwise
    intro i j u v hij hu hv
    obtain ⟨hi, rfl⟩ := List.getElem?_eq_some.mp hu
    obtain ⟨hj, rfl⟩ := List.getElem?_eq_some.mp hv
    rcases Nat.lt_or_gt_of_ne hij with hlt | hgt
    · exact hpw i j hi hj hlt
    · rw [Vertex.veq_symm]; exact hpw j i hj hi hgt
  · show (weld WeldState.empty (sceneCorners fsub scene)).hostVerts.length = _
    rw [hinv.verts]

/-- C8, as amended.  Welded vertices are compact and numbered by first use:
the corner sequence is that of the vertices `(vertices[idx], normals[idx],
(texCoords[idx].x, 1 - texCoords[idx].y))` over the indices of the faces with
exactly 3 indices, mesh by mesh;
for an imported scene in which every mesh has normals and UVs and whose
triangular faces have at most 2^32 distinct corner vertices, the call with
empty buffers returns, `hostVerts` is the list of distinct corner vertices in
corner order, every position of `hostVerts` occurs in `hostIndices`, every
value below an entry of `hostIndices` occurs before that entry (so the first
occurrences of the values are in the order 0, 1, 2, ...), and `hostVerts` is
no longer than `hostIndices`. -/
theorem loadMesh_compact (ReadFile : String → Option aiScene) (fsub : F32 → F32 → F32)
    (modelFileName : String) (scene : aiScene) (hread : ReadFile modelFileName = some scene)
    (hcons : scene.Consistent) (hattrs : scene.hasNormalsAndUVs = true)
    (hsize : (distinctCorners (sceneCorners fsub scene)).length ≤ UINT32_SIZE) :
    sceneCorners fsub scene =
      scene.mMeshes.flatMap (fun mesh =>
        (mesh.mFaces.filter (fun face => face.mIndices.length == 3)).flatMap (fun face =>
          face.mIndices.map (fun idx =>
            ({ pos :=
                { x := (mesh.mVertices.getD idx aiVector3D.zero).x
                  y := (mesh.mVertices.getD idx aiVector3D.zero).y
                  z := (mesh.mVertices.getD idx aiVector3D.zero).z }
               normal :=
                { x := ((mesh.mNormals.getD []).getD idx aiVector3D.zero).x
                  y := ((mesh.mNormals.getD []).getD idx aiVector3D.zero).y
                  z := ((mesh.mNormals.getD []).getD idx aiVector3D.zero).z }
               texCoord :=
                { x := ((mesh.mTextureCoords0.getD []).getD idx aiVector3D.zero).x
                  y := fsub F32.one
                    ((mesh.mTextureCoords0.getD []).getD idx aiVector3D.zero).y } }
              : Vertex)))) ∧
    ∃ b, loadMeshIntoHostBuffers ReadFile fsub modelFileName [] [] = .returned b ∧
      b.hostVerts = distinctCorners (sceneCorners fsub scene) ∧
      (∀ k : Nat, k < b.hostVerts.length → k ∈ b.hostIndices) ∧
      (∀ p idx : Nat, b.hostIndices[p]? = some idx →
        ∀ k : Nat, k < idx → k ∈ b.hostIndices.take p) ∧
      b.hostVerts.length ≤ b.hostIndices.length := by
  obtain ⟨raw, hinv⟩ := weld_inv (sceneCorners fsub scene)
  refine ⟨rfl, _, loadMesh_returned ReadFile fsub modelFileName scene hread hcons hattrs, ?_⟩
  have hsz : (weld WeldState.empty (sceneCorners fsub scene)).hostVerts.length ≤ UINT32_SIZE := by
    rw [hinv.verts]; exact hsize
  have hraw := hinv.indices_eq_raw hsz
  have hcov : ∀ k : Nat, k < (weld WeldState.empty (sceneCorners fsub scene)).hostVerts.length →
      k ∈ (weld WeldState.empty (sceneCorners fsub scene)).hostIndices := by
    intro k hk; rw [hraw]; exact hinv.covered k hk
  refine ⟨hinv.verts, hcov, ?_, ?_⟩
  · intro p idx hp k hk
    show k ∈ (weld WeldState.empty (sceneCorners fsub scene)).hostIndices.take p
    have hp1 : (weld WeldState.empty (sceneCorners fsub scene)).hostIndices[p]? = some idx := hp
    rw [hraw] at hp1 ⊢
    exact hinv.growth p idx hp1 k hk
  · show (weld WeldState.empty (sceneCorners fsub scene)).hostVerts.length
      ≤ (weld WeldState.empty (sceneCorners fsub scene)).hostIndices.length
    have hnd : (List.range (weld WeldState.empty (sceneCorners fsub scene)).hostVerts.length).Nodup :=
      List.nodup_range _
    have hsub : List.range (weld WeldState.empty (sceneCorners fsub scene)).hostVerts.length
        ⊆ (weld WeldState.empty (sceneCorners fsub scene)).hostIndices :=
      fun k hk => hcov k (List.mem_range.mp hk)
    have := (List.subperm_of_subset hnd hsub).length_le
    simpa using this

theorem aiMesh.lacks_iff (m : aiMesh) :
    m.hasNormalsAndUVs = false ↔ (m.mNormals = none ∨ m.mTextureCoords0 = none) := by
  unfold aiMesh.hasNormalsAndUVs
  cases m.mNormals <;> cases m.mTextureCoords0 <;> simp

theorem loadMesh_eq_meshLoop (ReadFile : String → Option aiScene) (fsub : F32 → F32 → F32)
    (modelFileName : String) (scene : aiScene) (hostVerts : List Vertex)
    (hostIndices : List Nat) (hread : ReadFile modelFileName = some scene) :
    loadMeshIntoHostBuffers ReadFile fsub modelFileName hostVerts hostIndices =
      match meshLoop fsub scene.mMeshes
          { vert2IdxLut := [], hostVerts := hostVerts, hostIndices := hostIndices } with
      | .returned st => .returned st.buffers
      | .threw what st => .threw what st.buffers
      | .undefined => .undefined := by
  simp only [loadMeshIntoHostBuffers, hread]

theorem exists_first_lacking :
    ∀ meshes : List aiMesh, (∃ m ∈ meshes, m.hasNormalsAndUVs = false) →
      ∃ (i : Nat) (mesh : aiMesh), meshes[i]? = some mesh ∧ mesh.hasNormalsAndUVs = false ∧
        ∀ m ∈ meshes.take i, m.hasNormalsAndUVs = true
  | [], hex => by simp at hex
  | m :: ms, hex => by
    cases hm : m.hasNormalsAndUVs with
    | false => exact ⟨0, m, by simp, hm, by simp⟩
    | true =>
      obtain ⟨m1, hm1, hl1⟩ := hex
      have hms : ∃ m ∈ ms, m.hasNormalsAndUVs = false := by
        rcases List.mem_cons.mp hm1 with rfl | h
        · rw [hm] at hl1; exact absurd hl1 (by simp)
        · exact ⟨m1, h, hl1⟩
      obtain ⟨i, mesh, hi, hl, hpre⟩ := exists_first_lacking ms hms
      refine ⟨i + 1, mesh, by simpa using hi, hl, ?_⟩
      intro x hx
      rw [List.take_succ_cons] at hx
      rcases List.mem_cons.mp hx with rfl | hx
      · exact hm
      · exact hpre x hx

/-- C7.  Mesh loading fails exactly on missing attributes: for an imported
scene the call throws `std::runtime_error("model must have normals and
uvs.")` if and only if some mesh lacks normals or lacks texture-coordinate
set 0 (whatever its faces are, also none), and it throws nothing else; the
failure is not atomic: when mesh `i` is the first such mesh, the buffers hold
at the throw what loading the meshes before `i` alone would have returned. -/
theorem loadMesh_throws_iff (ReadFile : String → Option aiScene) (fsub : F32 → F32 → F32)
    (modelFileName : String) (scene : aiScene) (hostVerts : List Vertex)
    (hostIndices : List Nat) (hread : ReadFile modelFileName = some scene)
    (hcons : scene.Consistent) :
    ((∃ b, loadMeshIntoHostBuffers ReadFile fsub modelFileName hostVerts hostIndices
          = .threw missingAttributesMsg b) ↔
        ∃ m ∈ scene.mMeshes, m.mNormals = none ∨ m.mTextureCoords0 = none) ∧
    (∀ what b, loadMeshIntoHostBuffers ReadFile fsub modelFileName hostVerts hostIndices
          = .threw what b → what = missingAttributesMsg) ∧
    (∀ (i : Nat) (mesh : aiMesh), scene.mMeshes[i]? = some mesh →
      (mesh.mNormals = none ∨ mesh.mTextureCoords0 = none) →
      (∀ m ∈ scene.mMeshes.take i, m.hasNormalsAndUVs = true) →
      ∃ b, loadMeshIntoHostBuffers ReadFile fsub modelFileName hostVerts hostIndices
            = .threw missingAttributesMsg b ∧
        loadMeshIntoHostBuffers (fun _ => some { mMeshes := scene.mMeshes.take i }) fsub
            modelFileName hostVerts hostIndices = .returned b) := by
  have hfirst : ∀ (i : Nat) (mesh : aiMesh), scene.mMeshes[i]? = some mesh →
      (mesh.mNormals = none ∨ mesh.mTextureCoords0 = none) →
      (∀ m ∈ scene.mMeshes.take i, m.hasNormalsAndUVs = true) →
      ∃ b, loadMeshIntoHostBuffers ReadFile fsub modelFileName hostVerts hostIndices
            = .threw missingAttributesMsg b ∧
        loadMeshIntoHostBuffers (fun _ => some { mMeshes := scene.mMeshes.take i }) fsub
            modelFileName hostVerts hostIndices = .returned b := by
    intro i mesh hi hbad hpre
    obtain ⟨hil, hmesh⟩ := List.getElem?_eq_some.mp hi
    have hsplit : scene.mMeshes = scene.mMeshes.take i ++ mesh :: scene.mMeshes.drop (i + 1) := by
      rw [← hmesh, List.getElem_cons_drop, List.take_append_drop]
    have hcpre : ∀ m ∈ scene.mMeshes.take i, m.Consistent :=
      fun m hm => hcons m (List.mem_of_mem_take hm)
    refine ⟨(weld { vert2IdxLut := [], hostVerts := hostVerts, hostIndices := hostIndices }
      ((scene.mMeshes.take i).flatMap (meshCorners fsub))).buffers, ?_, ?_⟩
    · have hthrow := meshLoop_append_lacks fsub (scene.mMeshes.take i) mesh
        (scene.mMeshes.drop (i + 1))
        { vert2IdxLut := [], hostVerts := hostVerts, hostIndices := hostIndices }
        hcpre hpre ((aiMesh.lacks_iff mesh).mpr hbad)
      rw [← hsplit] at hthrow
      rw [loadMesh_eq_meshLoop ReadFile fsub modelFileName scene hostVerts hostIndices hread,
        hthrow]
    · rw [loadMesh_eq_meshLoop (fun _ => some { mMeshes := scene.mMeshes.take i }) fsub
        modelFileName { mMeshes := scene.mMeshes.take i } hostVerts hostIndices rfl]
      simp only
      rw [meshLoop_eq fsub _ _ hcpre hpre]
  have hiff := meshLoop_threw_iff fsub scene.mMeshes
    { vert2IdxLut := [], hostVerts := hostVerts, hostIndices := hostIndices } hcons
  have hmsg : ∀ what b, loadMeshIntoHostBuffers ReadFile fsub modelFileName hostVerts hostIndices
      = .threw what b → what = missingAttributesMsg := by
    intro what b hthrow
    have hex : ∃ m ∈ scene.mMeshes, m.hasNormalsAndUVs = false := by
      apply hiff.mp
      rw [loadMesh_eq_meshLoop ReadFile fsub modelFileName scene hostVerts hostIndices hread]
        at hthrow
      cases hml : meshLoop fsub scene.mMeshes
          { vert2IdxLut := [], hostVerts := hostVerts, hostIndices := hostIndices } with
      | returned st => rw [hml] at hthrow; simp at hthrow
      | threw w st => exact ⟨w, st, rfl⟩
      | undefined => rw [hml] at hthrow; simp at hthrow
    obtain ⟨i, mesh, hmi, hl, hpre⟩ := exists_first_lacking scene.mMeshes hex
    obtain ⟨b1, hb1, _⟩ := hfirst i mesh hmi ((aiMesh.lacks_iff mesh).mp hl) hpre
    rw [hb1] at hthrow
    injection hthrow with hw _
    exact hw.symm
  refine ⟨⟨?_, ?_⟩, hmsg, hfirst⟩
  · rintro ⟨b, hb⟩
    have hex : ∃ m ∈ scene.mMeshes, m.hasNormalsAndUVs = false := by
      apply hiff.mp
      rw [loadMesh_eq_meshLoop ReadFile fsub modelFileName scene hostVerts hostIndices hread] at hb
      cases hml : meshLoop fsub scene.mMeshes
          { vert2IdxLut := [], hostVerts := hostVerts, hostIndices := hostIndices } with
      | returned st => rw [hml] at hb; simp at hb
      | threw w st => exact ⟨w, st, rfl⟩
      | undefined => rw [hml] at hb; simp at hb
    obtain ⟨m, hm, hl⟩ := hex
    exact ⟨m, hm, (aiMesh.lacks_iff m).mp hl⟩
  · rintro ⟨m, hm, hl⟩
    obtain ⟨w, st, hw⟩ := hiff.mpr ⟨m, hm, (aiMesh.lacks_iff m).mpr hl⟩
    have hthrow : loadMeshIntoHostBuffers ReadFile fsub modelFileName hostVerts hostIndices
        = .threw w st.buffers := by
      rw [loadMesh_eq_meshLoop ReadFile fsub modelFileName scene hostVerts hostIndices hread, hw]
    rw [hmsg w _ hthrow] at hthrow
    exact ⟨_, hthrow⟩

/-! ## Witnesses and counterexamples for the loader -/

/-- Witness for C1: the round trip on the three-mesh sample scene.  Its
twelve triangle corners, written out in `sampleCorners`, weld to the six
vertices of `sampleBuffers`; the corners of the last mesh differ in the
flipped texture coordinate only and get the indices 0, 4 and 5. -/
theorem loadMesh_roundtrip_witness :
    sampleScene.Consistent ∧ sampleScene.hasNormalsAndUVs = true ∧
    (distinctCorners (sceneCorners sampleSub sampleScene)).length ≤ UINT32_SIZE ∧
    sceneCorners sampleSub sampleScene = sampleCorners ∧
    loadMeshIntoHostBuffers (fun _ => some sampleScene) sampleSub "quad.obj" [] []
      = .returned sampleBuffers ∧
    ∃ b, loadMeshIntoHostBuffers (fun _ => some sampleScene) sampleSub "quad.obj" [] []
        = .returned b ∧
      b.hostIndices.length = (sceneCorners sampleSub sampleScene).length ∧
      b.hostIndices.length = 3 * triangleCount sampleScene ∧
      ∀ (i : Nat) (c : Vertex), (sceneCorners sampleSub sampleScene)[i]? = some c →
        ∃ idx v, b.hostIndices[i]? = some idx ∧ b.hostVerts[idx]? = some v ∧
          (if c.hasNaN then v = c else Vertex.veq v c = true) :=
  ⟨by decide, by decide, by decide, by decide, by decide,
    (loadMesh_roundtrip (fun _ => some sampleScene) sampleSub "quad.obj" sampleScene rfl
      (by decide) (by decide) (by decide)).2⟩

/-- Witness for C2: deduplication on the three-mesh sample scene.  The
second mesh repeats two corner vertices of the first, the third has three
corners that differ in the texture coordinate only, of which one repeats a
corner of the first mesh: twelve corners, six distinct, six stored. -/
theorem loadMesh_dedup_witness :
    sampleScene.Consistent ∧ sampleScene.hasNormalsAndUVs = true ∧
    sceneCorners sampleSub sampleScene = sampleCorners ∧
    (distinctCorners sampleCorners).length = 6 ∧
    loadMeshIntoHostBuffers (fun _ => some sampleScene) sampleSub "quad.obj" [] []
      = .returned sampleBuffers ∧
    sampleBuffers.hostVerts.length = 6 ∧
    ∃ b, loadMeshIntoHostBuffers (fun _ => some sampleScene) sampleSub "quad.obj" [] []
        = .returned b ∧
      (∀ (i j : Nat) (u v : Vertex), i ≠ j → b.hostVerts[i]? = some u →
        b.hostVerts[j]? = some v → Vertex.veq u v = false) ∧
      b.hostVerts.length = (distinctCorners (sceneCorners sampleSub sampleScene)).length ∧
      ((∀ c ∈ sceneCorners sampleSub sampleScene, c.hasNaN = false) →
        b.hostVerts.length
          = ((sceneCorners sampleSub sampleScene).map Vertex.canon).toFinset.card) :=
  ⟨by decide, by decide, by decide, by decide, by decide, by decide,
    (loadMesh_dedup (fun _ => some sampleScene) sampleSub "quad.obj" sampleScene rfl
      (by decide) (by decide)).2⟩

/-- Witness for C8: compact numbering on the three-mesh sample scene: the
distinct corners of `sampleCorners`, in the order of their first use, are the
six stored vertices, and the indices number them in that order. -/
theorem loadMesh_compact_witness :
    sampleScene.Consistent ∧ sampleScene.hasNormalsAndUVs = true ∧
    (distinctCorners (sceneCorners sampleSub sampleScene)).length ≤ UINT32_SIZE ∧
    sceneCorners sampleSub sampleScene = sampleCorners ∧
    distinctCorners sampleCorners = sampleBuffers.hostVerts ∧
    loadMeshIntoHostBuffers (fun _ => some sampleScene) sampleSub "quad.obj" [] []
      = .returned sampleBuffers ∧
    ∃ b, loadMeshIntoHostBuffers (fun _ => some sampleScene) sampleSub "quad.obj" [] []
        = .returned b ∧
      b.hostVerts = distinctCorners (sceneCorners sampleSub sampleScene) ∧
      (∀ k : Nat, k < b.hostVerts.length → k ∈ b.hostIndices) ∧
      (∀ p idx : Nat, b.hostIndices[p]? = some idx →
        ∀ k : Nat, k < idx → k ∈ b.hostIndices.take p) ∧
      b.hostVerts.length ≤ b.hostIndices.length :=
  ⟨by decide, by decide, by decide, by decide, by decide, by decide,
    (loadMesh_compact (fun _ => some sampleScene) sampleSub "quad.obj" sampleScene rfl
      (by decide) (by decide) (by decide)).2⟩

/-- Witness for C7: in the sample scene whose second mesh has no normals and
no faces the loader throws, and the buffers hold what the first mesh gave. -/
theorem loadMesh_throws_iff_witness :
    brokenScene.Consistent ∧
    loadMeshIntoHostBuffers (fun _ => some brokenScene) sampleSub "broken.obj" [] []
      = .threw missingAttributesMsg
          { hostVerts := [cornerOf sampleSub quadMesh 0, cornerOf sampleSub quadMesh 1,
              cornerOf sampleSub quadMesh 2]
            hostIndices := [0, 1, 2, 2, 1, 0] } ∧
    ((∃ b, loadMeshIntoHostBuffers (fun _ => some brokenScene) sampleSub "broken.obj" [] []
          = .threw missingAttributesMsg b) ↔
        ∃ m ∈ brokenScene.mMeshes, m.mNormals = none ∨ m.mTextureCoords0 = none) :=
  ⟨by decide, by decide,
    (loadMesh_throws_iff (fun _ => some brokenScene) sampleSub "broken.obj" brokenScene [] []
      rfl (by decide)).1⟩

/-! ## Vertex equality and hash -/

theorem sampleHashFloat_congr {a b : F32} (h : F32.feq a b = true) :
    sampleHashFloat a = sampleHashFloat b := by
  unfold F32.feq at h
  simp only [Bool.and_eq_true, Bool.or_eq_true, decide_eq_true_eq] at h
  rcases h.2 with h1 | h1
  · rw [h1]
  · simp [sampleHashFloat, h1.1, h1.2]

theorem sampleHashCombine3_congr (seed : Nat) (a b : Vec3) (h : Vec3.veq a b = true) :
    sampleHashCombine3 seed a = sampleHashCombine3 seed b := by
  unfold Vec3.veq at h
  simp only [Bool.and_eq_true] at h
  simp only [sampleHashCombine3, sampleHashFloat_congr h.1.1, sampleHashFloat_congr h.1.2,
    sampleHashFloat_congr h.2]

theorem sampleHashCombine2_congr (seed : Nat) (a b : Vec2) (h : Vec2.veq a b = true) :
    sampleHashCombine2 seed a = sampleHashCombine2 seed b := by
  unfold Vec2.veq at h
  simp only [Bool.and_eq_true] at h
  simp only [sampleHashCombine2, sampleHashFloat_congr h.1, sampleHashFloat_congr h.2]

/-- C6, as amended.  `Vertex::operator==` holds for two vertices exactly when
their `pos`, their `normal` and their `texCoord` are each `==`; it is
symmetric and transitive, and it is reflexive exactly on the vertices with no
NaN component.  The hash is `hash_combine` applied from seed 0 to `pos`,
`normal`, `texCoord` in that order, and, for a `hash_combine` that gives
`==` vectors the same seed, two `==` vertices have the same hash. -/
theorem vertex_eq_hash_consistent (hash_combine3 : Nat → Vec3 → Nat)
    (hash_combine2 : Nat → Vec2 → Nat)
    (h3 : ∀ seed a b, Vec3.veq a b = true → hash_combine3 seed a = hash_combine3 seed b)
    (h2 : ∀ seed a b, Vec2.veq a b = true → hash_combine2 seed a = hash_combine2 seed b) :
    (∀ a b : Vertex, Vertex.veq a b = true ↔
      (Vec3.veq a.pos b.pos = true ∧ Vec3.veq a.normal b.normal = true ∧
        Vec2.veq a.texCoord b.texCoord = true)) ∧
    (∀ a : Vertex, Vertex.veq a a = true ↔ a.hasNaN = false) ∧
    (∀ a b : Vertex, Vertex.veq a b = true → Vertex.veq b a = true) ∧
    (∀ a b c : Vertex, Vertex.veq a b = true → Vertex.veq b c = true →
      Vertex.veq a c = true) ∧
    (∀ a : Vertex, Vertex.hash hash_combine3 hash_combine2 a
      = hash_combine2 (hash_combine3 (hash_combine3 0 a.pos) a.normal) a.texCoord) ∧
    (∀ a b : Vertex, Vertex.veq a b = true →
      Vertex.hash hash_combine3 hash_combine2 a = Vertex.hash hash_combine3 hash_combine2 b) := by
  refine ⟨?_, ?_, ?_, ?_, fun _ => rfl, ?_⟩
  · intro a b
    simp [Vertex.veq, and_assoc]
  · intro a
    rw [Vertex.veq_self_iff]
    cases a.hasNaN <;> simp
  · intro a b h
    rw [Vertex.veq_symm]; exact h
  · intro a b c hab hbc
    exact Vertex.veq_trans hab hbc
  · intro a b h
    unfold Vertex.veq at h
    simp only [Bool.and_eq_true] at h
    simp only [Vertex.hash]
    rw [h3 0 a.pos b.pos h.1.1, h3 _ a.normal b.normal h.1.2, h2 _ a.texCoord b.texCoord h.2]

/-- Witness for C6: the sample `hash_combine`, built on a float hash that
sends both zeros to 0, gives `==` vectors the same seed. -/
theorem vertex_eq_hash_consistent_witness :
    (∀ a b : Vertex, Vertex.veq a b = true ↔
      (Vec3.veq a.pos b.pos = true ∧ Vec3.veq a.normal b.normal = true ∧
        Vec2.veq a.texCoord b.texCoord = true)) ∧
    (∀ a : Vertex, Vertex.veq a a = true ↔ a.hasNaN = false) ∧
    (∀ a b : Vertex, Vertex.veq a b = true → Vertex.veq b a = true) ∧
    (∀ a b c : Vertex, Vertex.veq a b = true → Vertex.veq b c = true →
      Vertex.veq a c = true) ∧
    (∀ a : Vertex, Vertex.hash sampleHashCombine3 sampleHashCombine2 a
      = sampleHashCombine2 (sampleHashCombine3 (sampleHashCombine3 0 a.pos) a.normal)
          a.texCoord) ∧
    (∀ a b : Vertex, Vertex.veq a b = true →
      Vertex.hash sampleHashCombine3 sampleHashCombine2 a
        = Vertex.hash sampleHashCombine3 sampleHashCombine2 b) :=
  vertex_eq_hash_consistent sampleHashCombine3 sampleHashCombine2
    sampleHashCombine3_congr sampleHashCombine2_congr

/-- C6 fails as stated: `operator==` is not reflexive, a vertex with a NaN
component is not equal to itself. -/
theorem vertex_eq_not_reflexive : ¬ ∀ a : Vertex, Vertex.veq a a = true :=
  fun h => absurd (h nanVertex) (by decide)

/-! ## loadTexture2D -/

theorem toUInt32_of_inRange {x : Int} (h0 : 0 ≤ x) (h1 : x < 4294967296) :
    (toUInt32 x : Int) = x := by
  unfold toUInt32
  rw [Int.emod_eq_of_lt h0 h1]
  exact Int.toNat_of_nonneg h0

theorem vkFormatOf_eq_none_iff (f : GliFormat) :
    vkFormatOf f = none ↔
      (f ≠ .FORMAT_RGBA8_UNORM_PACK8 ∧ f ≠ .FORMAT_RGBA32_SFLOAT_PACK32 ∧
        f ≠ .FORMAT_RGBA_DXT5_UNORM_BLOCK16 ∧ f ≠ .FORMAT_RG32_SFLOAT_PACK32) := by
  cases f <;> simp [vkFormatOf]

/-- C5.  `ImageWrapper` describes the uploaded texture: when `loadTexture2D`
returns, the uploaded texture is the source texture, or its generated mip
chain exactly when the source has 1 level and `generateMipLevels` is true;
the wrapper's width, height and mip count are that texture's extent and
level count narrowed to `uint32_t`, hence equal to them for the non-negative
extents and the level counts that fit 32 bits, its format
is the Vulkan format mapped from the texture's format, its image is the
handle `createImage2D` returned for exactly that width, height, format and
mip count, the texture's bytes are transferred to that image, and exactly
one view handle, made by `createImageView2D` for mip levels 0 up to the mip
count of that image, is appended to `imageViews`; `depth` is not written. -/
theorem loadTexture2D_describes {M : Type} (env : TextureEnv M) (pTexRet : ImageWrapper)
    (pManager : M) (fn : String) (generateMipLevels : Bool) (tex : ImageWrapper) (m : M)
    (hret : loadTexture2D env pTexRet pManager fn generateMipLevels = .returned (tex, m)) :
    (textureMipmapped env fn generateMipLevels =
      if (env.load fn).levels = 1 ∧ generateMipLevels = true
      then env.generate_mipmaps (env.load fn) else env.load fn) ∧
    tex.width = toUInt32 (textureMipmapped env fn generateMipLevels).extent_x ∧
    tex.height = toUInt32 (textureMipmapped env fn generateMipLevels).extent_y ∧
    tex.mipLevelCount = (textureMipmapped env fn generateMipLevels).levels % 4294967296 ∧
    ((textureMipmapped env fn generateMipLevels).InRange →
      (tex.width : Int) = (textureMipmapped env fn generateMipLevels).extent_x ∧
      (tex.height : Int) = (textureMipmapped env fn generateMipLevels).extent_y ∧
      tex.mipLevelCount = (textureMipmapped env fn generateMipLevels).levels) ∧
    vkFormatOf (textureMipmapped env fn generateMipLevels).format = some tex.format ∧
    (vkFormatOf .FORMAT_RGBA8_UNORM_PACK8 = some .VK_FORMAT_R8G8B8A8_UNORM ∧
      vkFormatOf .FORMAT_RGBA32_SFLOAT_PACK32 = some .VK_FORMAT_R32G32B32A32_SFLOAT ∧
      vkFormatOf .FORMAT_RGBA_DXT5_UNORM_BLOCK16 = some .VK_FORMAT_BC3_UNORM_BLOCK ∧
      vkFormatOf .FORMAT_RG32_SFLOAT_PACK32 = some .VK_FORMAT_R32G32_SFLOAT) ∧
    (∃ m1 m2 view,
      env.createImage2D pManager tex.width tex.height tex.format
        (VK_IMAGE_USAGE_TRANSFER_DST_BIT ||| VK_IMAGE_USAGE_SAMPLED_BIT)
        VK_MEMORY_PROPERTY_DEVICE_LOCAL_BIT tex.mipLevelCount = .ok tex.image m1 ∧
      env.transferHostDataToImage m1 tex.image (textureMipmapped env fn generateMipLevels).size
        (textureMipmapped env fn generateMipLevels).data VK_IMAGE_ASPECT_COLOR_BIT
        VK_IMAGE_LAYOUT_SHADER_READ_ONLY_OPTIMAL = .ok () m2 ∧
      env.createImageView2D m2 tex.image VK_IMAGE_ASPECT_COLOR_BIT 0 tex.mipLevelCount
        = .ok view m ∧
      tex.imageViews = pTexRet.imageViews ++ [view]) ∧
    tex.depth = pTexRet.depth := by
  unfold loadTexture2D at hret
  simp only at hret
  split at hret
  · exact absurd hret (by simp)
  split at hret
  · exact absurd hret (by simp)
  split at hret
  · exact absurd hret (by simp)
  rename_i format hformat
  split at hret
  · exact absurd hret (by simp)
  rename_i image m1 hcreate
  split at hret
  · exact absurd hret (by simp)
  rename_i u m2 hxfer
  split at hret
  · exact absurd hret (by simp)
  rename_i view m3 hview
  injection hret with hret
  injection hret with htex hm
  subst htex; subst hm
  refine ⟨rfl, rfl, rfl, rfl, ?_, hformat, ⟨rfl, rfl, rfl, rfl⟩,
    ⟨m1, m2, view, hcreate, hxfer, hview, rfl⟩, rfl⟩
  rintro ⟨hx0, hx1, hy0, hy1, hl⟩
  exact ⟨toUInt32_of_inRange hx0 hx1, toUInt32_of_inRange hy0 hy1, Nat.mod_eq_of_lt hl⟩

/-- C9.  Texture rejection is atomic: `loadTexture2D` throws
`std::runtime_error` when the file extension is neither "ktx" nor "dds", for
such an extension when the loaded texture is empty, and for a non-empty
texture when the format of the texture to upload is none of the four
supported formats; whenever one of the three conditions holds the call
throws, with the wrapper and the manager as they were before the call. -/
theorem loadTexture2D_rejects {M : Type} (env : TextureEnv M) (pTexRet : ImageWrapper)
    (pManager : M) (fn : String) (generateMipLevels : Bool) :
    ((env.getFileExtension fn ≠ "ktx" ∧ env.getFileExtension fn ≠ "dds") →
      loadTexture2D env pTexRet pManager fn generateMipLevels
        = .threw ("texture type ." ++ env.getFileExtension fn ++ " is not supported.")
            (pTexRet, pManager)) ∧
    (¬ (env.getFileExtension fn ≠ "ktx" ∧ env.getFileExtension fn ≠ "dds") →
      (env.load fn).empty = true →
      loadTexture2D env pTexRet pManager fn generateMipLevels
        = .threw "cannot load texture." (pTexRet, pManager)) ∧
    (¬ (env.getFileExtension fn ≠ "ktx" ∧ env.getFileExtension fn ≠ "dds") →
      (env.load fn).empty = false →
      ((textureMipmapped env fn generateMipLevels).format ≠ .FORMAT_RGBA8_UNORM_PACK8 ∧
        (textureMipmapped env fn generateMipLevels).format ≠ .FORMAT_RGBA32_SFLOAT_PACK32 ∧
        (textureMipmapped env fn generateMipLevels).format ≠ .FORMAT_RGBA_DXT5_UNORM_BLOCK16 ∧
        (textureMipmapped env fn generateMipLevels).format ≠ .FORMAT_RG32_SFLOAT_PACK32) →
      loadTexture2D env pTexRet pManager fn generateMipLevels
        = .threw "texture format is not supported." (pTexRet, pManager)) ∧
    (((env.getFileExtension fn ≠ "ktx" ∧ env.getFileExtension fn ≠ "dds") ∨
        (env.load fn).empty = true ∨
        ((textureMipmapped env fn generateMipLevels).format ≠ .FORMAT_RGBA8_UNORM_PACK8 ∧
          (textureMipmapped env fn generateMipLevels).format ≠ .FORMAT_RGBA32_SFLOAT_PACK32 ∧
          (textureMipmapped env fn generateMipLevels).format ≠ .FORMAT_RGBA_DXT5_UNORM_BLOCK16 ∧
          (textureMipmapped env fn generateMipLevels).format ≠ .FORMAT_RG32_SFLOAT_PACK32)) →
      ∃ what, loadTexture2D env pTexRet pManager fn generateMipLevels
        = .threw what (pTexRet, pManager)) := by
  have h1 : (env.getFileExtension fn ≠ "ktx" ∧ env.getFileExtension fn ≠ "dds") →
      loadTexture2D env pTexRet pManager fn generateMipLevels
        = .threw ("texture type ." ++ env.getFileExtension fn ++ " is not supported.")
            (pTexRet, pManager) := by
    intro hext
    unfold loadTexture2D
    simp only
    rw [if_pos hext]
  have h2 : ¬ (env.getFileExtension fn ≠ "ktx" ∧ env.getFileExtension fn ≠ "dds") →
      (env.load fn).empty = true →
      loadTexture2D env pTexRet pManager fn generateMipLevels
        = .threw "cannot load texture." (pTexRet, pManager) := by
    intro hext hempty
    unfold loadTexture2D
    simp only
    rw [if_neg hext, if_pos hempty]
  have h3 : ¬ (env.getFileExtension fn ≠ "ktx" ∧ env.getFileExtension fn ≠ "dds") →
      (env.load fn).empty = false →
      ((textureMipmapped env fn generateMipLevels).format ≠ .FORMAT_RGBA8_UNORM_PACK8 ∧
        (textureMipmapped env fn generateMipLevels).format ≠ .FORMAT_RGBA32_SFLOAT_PACK32 ∧
        (textureMipmapped env fn generateMipLevels).format ≠ .FORMAT_RGBA_DXT5_UNORM_BLOCK16 ∧
        (textureMipmapped env fn generateMipLevels).format ≠ .FORMAT_RG32_SFLOAT_PACK32) →
      loadTexture2D env pTexRet pManager fn generateMipLevels
        = .threw "texture format is not supported." (pTexRet, pManager) := by
    intro hext hempty hfmt
    have hnone := (vkFormatOf_eq_none_iff _).mpr hfmt
    unfold textureMipmapped at hnone
    simp only at hnone
    unfold loadTexture2D
    simp only
    rw [if_neg hext, if_neg (by simp [hempty])]
    simp only [hnone]
  refine ⟨h1, h2, h3, ?_⟩
  intro h
  by_cases hext : (env.getFileExtension fn ≠ "ktx" ∧ env.getFileExtension fn ≠ "dds")
  · exact ⟨_, h1 hext⟩
  · cases hempty : (env.load fn).empty with
    | true => exact ⟨_, h2 hext hempty⟩
    | false =>
      rcases h with h | h | h
      · exact absurd h hext
      · rw [hempty] at h; exact absurd h (by simp)
      · exact ⟨_, h3 hext hempty h⟩

/-! ## VMesh::updateHostUniformBuffer -/

/-- C4.  Dirty-flag gating of the uniform buffer: for a `VMesh` with a
non-null `uPerModelInfo`, when `uniformDataChanged` is false the call leaves
every field as it is; when it is true the call stores in `M` the matrix
`translate(mat4_cast(worldRotation) * scale(mat4(), vec3(scale)),
worldPosition)` and in `M_invTrans` the transposed inverse of that matrix,
clears the flag and changes nothing else, so `M` and `M_invTrans` are
recomputed from `worldRotation`, `scale` and `worldPosition` only and two
objects that agree on these three fields get the same buffer; in both cases
the flag is false afterwards and a second call returns the state unchanged. -/
theorem updateHostUniformBuffer_gated {Mat4 Quat : Type} (glm : Glm Mat4 Quat)
    (self : VMesh Mat4 Quat) (info : PerModelUniformBuffer Mat4)
    (hinfo : self.uPerModelInfo = some info) :
    (self.uniformDataChanged = false →
      self.updateHostUniformBuffer glm = .returned self) ∧
    (self.uniformDataChanged = true →
      self.updateHostUniformBuffer glm = .returned
        { self with
            uPerModelInfo := some
              { M := glm.translate
                  (glm.mul (glm.mat4_cast self.worldRotation)
                    (glm.scale glm.identity ⟨self.scale, self.scale, self.scale⟩))
                  self.worldPosition
                M_invTrans := glm.transpose (glm.inverse
                  (glm.translate
                    (glm.mul (glm.mat4_cast self.worldRotation)
                      (glm.scale glm.identity ⟨self.scale, self.scale, self.scale⟩))
                    self.worldPosition)) }
            uniformDataChanged := false }) ∧
    (∀ (other : VMesh Mat4 Quat) (info1 : PerModelUniformBuffer Mat4),
      other.uPerModelInfo = some info1 →
      self.uniformDataChanged = true → other.uniformDataChanged = true →
      other.worldRotation = self.worldRotation → other.scale = self.scale →
      other.worldPosition = self.worldPosition →
      ∃ next next1, self.updateHostUniformBuffer glm = .returned next ∧
        other.updateHostUniformBuffer glm = .returned next1 ∧
        next.uPerModelInfo = next1.uPerModelInfo) ∧
    (∃ next, self.updateHostUniformBuffer glm = .returned next ∧
      next.uniformDataChanged = false ∧
      next.updateHostUniformBuffer glm = .returned next) := by
  have hclean : self.uniformDataChanged = false →
      self.updateHostUniformBuffer glm = .returned self := by
    intro h
    simp [VMesh.updateHostUniformBuffer, hinfo, h]
  have hdirty : ∀ (v : VMesh Mat4 Quat) (i : PerModelUniformBuffer Mat4),
      v.uPerModelInfo = some i → v.uniformDataChanged = true →
      v.updateHostUniformBuffer glm = .returned
        { v with
            uPerModelInfo := some
              { M := glm.translate
                  (glm.mul (glm.mat4_cast v.worldRotation)
                    (glm.scale glm.identity ⟨v.scale, v.scale, v.scale⟩))
                  v.worldPosition
                M_invTrans := glm.transpose (glm.inverse
                  (glm.translate
                    (glm.mul (glm.mat4_cast v.worldRotation)
                      (glm.scale glm.identity ⟨v.scale, v.scale, v.scale⟩))
                    v.worldPosition)) }
            uniformDataChanged := false } := by
    intro v i hi h
    simp [VMesh.updateHostUniformBuffer, modelMatrix, hi, h]
  refine ⟨hclean, hdirty self info hinfo, ?_, ?_⟩
  · intro other info1 hinfo1 hs ho hr hsc hp
    refine ⟨_, _, hdirty self info hinfo hs, hdirty other info1 hinfo1 ho, ?_⟩
    simp [hr, hsc, hp]
  · cases h : self.uniformDataChanged with
    | false => exact ⟨self, hclean h, h, hclean h⟩
    | true =>
      refine ⟨_, hdirty self info hinfo h, rfl, ?_⟩
      simp [VMesh.updateHostUniformBuffer]

/-! ## Skybox::load -/

theorem Outcome.andThen_returned {σ : Type} {o : Outcome σ} {f : σ → Outcome σ} {r : σ}
    (h : o.andThen f = .returned r) : ∃ s, o = .returned s ∧ f s = .returned r := by
  cases o with
  | returned s => exact ⟨s, rfl, h⟩
  | threw what s => simp [Outcome.andThen] at h
  | undefined => simp [Outcome.andThen] at h

theorem levelViewLoop_flags {D B : Type} (env : SkyboxEnv D B) :
    ∀ (todo : List Nat) (self next : Skybox B) (device d : D),
      levelViewLoop env todo self device = .returned (next, d) →
      next.specMapReady = self.specMapReady ∧ next.diffMapReady = self.diffMapReady ∧
      next.shouldSaveSpecMap = self.shouldSaveSpecMap ∧
      next.shouldSaveDiffMap = self.shouldSaveDiffMap
  | [], self, next, device, d, h => by
    simp only [levelViewLoop, Outcome.returned.injEq, Prod.mk.injEq] at h
    rw [← h.1]
    exact ⟨rfl, rfl, rfl, rfl⟩
  | level :: todo, self, next, device, d, h => by
    rw [levelViewLoop] at h
    split at h
    · exact absurd h (by simp)
    · have h2 := levelViewLoop_flags env todo _ next _ d h
      exact h2

theorem loadSpecular_flags {D B : Type} (env : SkyboxEnv D B) (self next : Skybox B)
    (device d : D) (specMapName : String)
    (h : Skybox.loadSpecular env self device specMapName = .returned (next, d)) :
    next.specMapReady = (if specMapName ≠ "" then true else self.specMapReady) ∧
    next.shouldSaveSpecMap = (if specMapName ≠ "" then self.shouldSaveSpecMap else true) ∧
    next.diffMapReady = self.diffMapReady ∧ next.shouldSaveDiffMap = self.shouldSaveDiffMap := by
  unfold Skybox.loadSpecular at h
  by_cases hname : specMapName ≠ ""
  · rw [if_pos hname] at h
    split at h
    · exact absurd h (by simp)
    · simp only [Outcome.returned.injEq, Prod.mk.injEq] at h
      rw [← h.1]
      simp [hname]
  · rw [if_neg hname] at h
    simp only at h
    split at h
    · exact absurd h (by simp)
    split at h
    · exact absurd h (by simp)
    obtain ⟨⟨s4, d3⟩, hloop, hrest⟩ := Outcome.andThen_returned h
    have hflags := levelViewLoop_flags env _ _ s4 _ d3 hloop
    simp only at hrest
    split at hrest
    · exact absurd hrest (by simp)
    · simp only [Outcome.returned.injEq, Prod.mk.injEq] at hrest
      rw [← hrest.1]
      simp only [ne_eq, not_not] at hname
      simp [hname, hflags.1, hflags.2.1, hflags.2.2.2]

theorem loadDiffuse_flags {D B : Type} (env : SkyboxEnv D B) (self next : Skybox B)
    (device d : D) (diffuseMapName : String)
    (h : Skybox.loadDiffuse env self device diffuseMapName = .returned (next, d)) :
    next.diffMapReady = (if diffuseMapName ≠ "" then true else self.diffMapReady) ∧
    next.shouldSaveDiffMap = (if diffuseMapName ≠ "" then self.shouldSaveDiffMap else true) ∧
    next.specMapReady = self.specMapReady ∧ next.shouldSaveSpecMap = self.shouldSaveSpecMap := by
  unfold Skybox.loadDiffuse at h
  by_cases hname : diffuseMapName ≠ ""
  · rw [if_pos hname] at h
    split at h
    · exact absurd h (by simp)
    · simp only [Outcome.returned.injEq, Prod.mk.injEq] at h
      rw [← h.1]
      simp [hname]
  · rw [if_neg hname] at h
    simp only at h
    split at h
    · exact absurd h (by simp)
    split at h
    · exact absurd h (by simp)
    split at h
    · exact absurd h (by simp)
    · simp only [Outcome.returned.injEq, Prod.mk.injEq] at h
      rw [← h.1]
      simp only [ne_eq, not_not] at hname
      simp [hname]

/-- C3.  Skybox readiness flags: when `Skybox::load` on a freshly
constructed `Skybox` returns without throwing, the radiance map name was not
empty, `specMapReady` is true exactly when `specMapName` is not empty and
`shouldSaveSpecMap` is true exactly when it is empty, `diffMapReady` is true
exactly when `diffuseMapName` is not empty and `shouldSaveDiffMap` is true
exactly when it is empty; so of the two flags of each irradiance map exactly
one is set. -/
theorem skybox_load_flags {D B : Type} (env : SkyboxEnv D B) (self next : Skybox B)
    (device d : D) (modelFileName radianceMapName specMapName diffuseMapName : String)
    (hfresh : self.Fresh)
    (hret : Skybox.load env self device modelFileName radianceMapName specMapName
      diffuseMapName = .returned (next, d)) :
    radianceMapName ≠ "" ∧
    (next.specMapReady = true ↔ specMapName ≠ "") ∧
    (next.shouldSaveSpecMap = true ↔ specMapName = "") ∧
    (next.diffMapReady = true ↔ diffuseMapName ≠ "") ∧
    (next.shouldSaveDiffMap = true ↔ diffuseMapName = "") ∧
    next.specMapReady ≠ next.shouldSaveSpecMap ∧
    next.diffMapReady ≠ next.shouldSaveDiffMap := by
  obtain ⟨f1, f2, f3, f4⟩ := hfresh
  unfold Skybox.load at hret
  simp only at hret
  obtain ⟨⟨s1, d1⟩, hrad, hret⟩ := Outcome.andThen_returned hret
  obtain ⟨⟨s2, d2⟩, hspec, hret⟩ := Outcome.andThen_returned hret
  obtain ⟨⟨s3, d3⟩, hdiff, hret⟩ := Outcome.andThen_returned hret
  have hname : radianceMapName ≠ "" := by
    intro hempty
    rw [if_neg (by simpa using hempty)] at hrad
    exact absurd hrad (by simp)
  have hs1 : s1.specMapReady = false ∧ s1.diffMapReady = false ∧
      s1.shouldSaveSpecMap = false ∧ s1.shouldSaveDiffMap = false := by
    rw [if_pos hname] at hrad
    split at hrad
    · exact absurd hrad (by simp)
    · simp only [Outcome.returned.injEq, Prod.mk.injEq] at hrad
      rw [← hrad.1]
      exact ⟨f1, f2, f3, f4⟩
  have hs2 := loadSpecular_flags env s1 s2 d1 d2 specMapName hspec
  have hs3 := loadDiffuse_flags env s2 s3 d2 d3 diffuseMapName hdiff
  have hnext : next.specMapReady = s3.specMapReady ∧ next.diffMapReady = s3.diffMapReady ∧
      next.shouldSaveSpecMap = s3.shouldSaveSpecMap ∧
      next.shouldSaveDiffMap = s3.shouldSaveDiffMap := by
    simp only at hret
    split at hret
    · exact absurd hret (by simp)
    · simp only [Outcome.returned.injEq, Prod.mk.injEq] at hret
      rw [← hret.1]
      exact ⟨rfl, rfl, rfl, rfl⟩
  obtain ⟨n1, n2, n3, n4⟩ := hnext
  obtain ⟨a1, a2, a3, a4⟩ := hs2
  obtain ⟨b1, b2, b3, b4⟩ := hs3
  obtain ⟨c1, c2, c3, c4⟩ := hs1
  rw [n1, n2, n3, n4, b1, b2, b3, b4, a1, a2, a3, a4, c1, c2, c3, c4]
  refine ⟨hname, ?_, ?_, ?_, ?_, ?_, ?_⟩ <;>
    by_cases hs : specMapName = "" <;> by_cases hd : diffuseMapName = "" <;> simp [hs, hd]

/-! ## Witnesses for the texture, uniform buffer and skybox claims -/

/-- Witness for C5: loading the single-level sample texture with mip
generation gives a wrapper for the 3-level chain. -/
theorem loadTexture2D_describes_witness :
    loadTexture2D sampleTextureEnv sampleWrapper sampleManager "albedo.ktx" true
      = .returned
          ({ image := 1, imageViews := [1], format := .VK_FORMAT_R8G8B8A8_UNORM, width := 4,
             height := 2, depth := 1, mipLevelCount := 3 },
           { images := [(8, 8, .VK_FORMAT_R32G32_SFLOAT, 1), (4, 2, .VK_FORMAT_R8G8B8A8_UNORM, 3)],
             views := [(0, 0, 1), (1, 0, 3)] }) ∧
    (textureMipmapped sampleTextureEnv "albedo.ktx" true).InRange ∧
    (textureMipmapped sampleTextureEnv "albedo.ktx" true).extent_x = 4 ∧
    (textureMipmapped sampleTextureEnv "albedo.ktx" true).extent_y = 2 ∧
    (textureMipmapped sampleTextureEnv "albedo.ktx" true).levels = 3 ∧
    vkFormatOf (textureMipmapped sampleTextureEnv "albedo.ktx" true).format
      = some .VK_FORMAT_R8G8B8A8_UNORM :=
  have h := loadTexture2D_describes sampleTextureEnv sampleWrapper sampleManager "albedo.ktx" true
    { image := 1, imageViews := [1], format := .VK_FORMAT_R8G8B8A8_UNORM, width := 4,
      height := 2, depth := 1, mipLevelCount := 3 }
    { images := [(8, 8, .VK_FORMAT_R32G32_SFLOAT, 1), (4, 2, .VK_FORMAT_R8G8B8A8_UNORM, 3)],
      views := [(0, 0, 1), (1, 0, 3)] }
    (by decide)
  have hr := h.2.2.2.2.1 (by decide)
  ⟨by decide, by decide, hr.1.symm, hr.2.1.symm, hr.2.2.symm, h.2.2.2.2.2.1⟩

/-- Witness for C9: the three rejections on the sample environment, each
leaving the wrapper and the manager as they were. -/
theorem loadTexture2D_rejects_witness :
    loadTexture2D sampleTextureEnv sampleWrapper sampleManager "photo.png" true
      = .threw "texture type .png is not supported." (sampleWrapper, sampleManager) ∧
    loadTexture2D sampleTextureEnv sampleWrapper sampleManager "missing.dds" true
      = .threw "cannot load texture." (sampleWrapper, sampleManager) ∧
    loadTexture2D sampleTextureEnv sampleWrapper sampleManager "lut.dds" true
      = .threw "texture format is not supported." (sampleWrapper, sampleManager) :=
  ⟨(loadTexture2D_rejects sampleTextureEnv sampleWrapper sampleManager "photo.png" true).1
      (by decide),
    (loadTexture2D_rejects sampleTextureEnv sampleWrapper sampleManager "missing.dds" true).2.1
      (by decide) (by decide),
    (loadTexture2D_rejects sampleTextureEnv sampleWrapper sampleManager "lut.dds" true).2.2.1
      (by decide) (by decide) (by decide)⟩

/-- Witness for C4: for the sample mesh object, whose matrices are the glm
expressions that build them, the call stores the expression of line 332 on
its rotation 7, scale 2 and position `(1, 0, -0)` and the transposed inverse
of it, and clears the flag; a second call changes nothing. -/
theorem updateHostUniformBuffer_gated_witness :
    sampleVMesh.uPerModelInfo = some { M := .given 0, M_invTrans := .given 1 } ∧
    sampleVMesh.uniformDataChanged = true ∧
    sampleVMesh.updateHostUniformBuffer sampleGlm = .returned
      { sampleVMesh with
          uPerModelInfo := some
            { M := .translate
                (.mul (.mat4_cast 7)
                  (.scale .identity ⟨⟨false, 128, 0⟩, ⟨false, 128, 0⟩, ⟨false, 128, 0⟩⟩))
                ⟨F32.one, F32.zero, F32.negZero⟩
              M_invTrans := .transpose (.inverse
                (.translate
                  (.mul (.mat4_cast 7)
                    (.scale .identity ⟨⟨false, 128, 0⟩, ⟨false, 128, 0⟩, ⟨false, 128, 0⟩⟩))
                  ⟨F32.one, F32.zero, F32.negZero⟩)) }
          uniformDataChanged := false } ∧
    ∃ next, sampleVMesh.updateHostUniformBuffer sampleGlm = .returned next ∧
      next.uniformDataChanged = false ∧
      next.updateHostUniformBuffer sampleGlm = .returned next :=
  ⟨rfl, rfl,
    (updateHostUniformBuffer_gated sampleGlm sampleVMesh
      { M := .given 0, M_invTrans := .given 1 } rfl).2.1 rfl,
    (updateHostUniformBuffer_gated sampleGlm sampleVMesh
      { M := .given 0, M_invTrans := .given 1 } rfl).2.2.2⟩

/-- Witness for C3: a fresh skybox loaded with a radiance and a diffuse map
from disk and no specular map. -/
theorem skybox_load_flags_witness :
    sampleSkybox.Fresh ∧
    Skybox.load sampleSkyboxEnv sampleSkybox 0 "cube.obj" "radiance.ktx" "" "diffuse.ktx"
      = .returned (sampleSkyboxLoaded, 16) ∧
    (sampleSkyboxLoaded.specMapReady = true ↔ ("" : String) ≠ "") ∧
    (sampleSkyboxLoaded.shouldSaveSpecMap = true ↔ ("" : String) = "") ∧
    (sampleSkyboxLoaded.diffMapReady = true ↔ "diffuse.ktx" ≠ "") ∧
    (sampleSkyboxLoaded.shouldSaveDiffMap = true ↔ "diffuse.ktx" = "") :=
  have hflags := skybox_load_flags sampleSkyboxEnv sampleSkybox sampleSkyboxLoaded 0 16
    "cube.obj" "radiance.ktx" "" "diffuse.ktx" ⟨rfl, rfl, rfl, rfl⟩ (by decide)
  ⟨⟨rfl, rfl, rfl, rfl⟩, by decide, hflags.2.1, hflags.2.2.1, hflags.2.2.2.1, hflags.2.2.2.2.1⟩

/-! ## A scene with more than 2^32 distinct corner vertices -/

theorem gridFloat_feq {i j : Nat} (hi : i < 2130706432) (hj : j < 2130706432)
    (h : F32.feq (gridFloat i) (gridFloat j) = true) : i = j := by
  unfold F32.feq at h
  simp only [Bool.and_eq_true, Bool.or_eq_true, decide_eq_true_eq] at h
  rcases h.2 with h1 | h1
  · unfold gridFloat at h1
    simp only [F32.mk.injEq, Fin.mk.injEq, true_and] at h1
    omega
  · have hz := h1.1
    simp only [F32.isZero, gridFloat, Bool.and_eq_true, beq_iff_eq] at hz
    omega

theorem gridFloat_not_isNaN {i : Nat} (hi : i < 2130706432) : (gridFloat i).isNaN = false := by
  simp only [F32.isNaN, gridFloat, Bool.and_eq_false_iff, beq_eq_false_iff_ne, ne_eq]
  left
  omega

theorem gridCorner_veq {fsub : F32 → F32 → F32} {m n i j : Nat}
    (hm : m < 2130706432) (hn : n < 2130706432) (hi : i < 2130706432) (hj : j < 2130706432)
    (h : Vertex.veq (gridCorner fsub m i) (gridCorner fsub n j) = true) : m = n ∧ i = j := by
  simp only [Vertex.veq, Vec3.veq, gridCorner, makeVertex, gridVertex, Bool.and_eq_true] at h
  exact ⟨gridFloat_feq hm hn h.1.1.1.2, gridFloat_feq hi hj h.1.1.1.1⟩

theorem range_flatMap_triples (T : Nat) :
    (List.range T).flatMap (fun t => [3 * t, 3 * t + 1, 3 * t + 2]) = List.range (3 * T) := by
  induction T with
  | zero => rfl
  | succ T ih =>
    have h3 : 3 * (T + 1) = 3 * T + 1 + 1 + 1 := by omega
    rw [List.range_succ, List.flatMap_append, ih, h3, List.range_succ, List.range_succ,
      List.range_succ]
    simp

theorem gridMesh_corners (fsub : F32 → F32 → F32) (T m : Nat) :
    meshCorners fsub (gridMesh T m) = (List.range (3 * T)).map (gridCorner fsub m) := by
  have htri : triangles (gridMesh T m) = (gridMesh T m).mFaces := by
    unfold triangles
    rw [List.filter_eq_self]
    intro f hf
    simp only [gridMesh, List.mem_map] at hf
    obtain ⟨t, _, rfl⟩ := hf
    rfl
  have hcorner : ∀ idx ∈ List.range (3 * T),
      cornerOf fsub (gridMesh T m) idx = gridCorner fsub m idx := by
    intro idx hidx
    have hlt : idx < 3 * T := List.mem_range.mp hidx
    simp [cornerOf, gridCorner, gridMesh, gridVertex, unitZ, aiVector3D.zero,
      List.getD_eq_getElem?_getD, List.getElem?_map, List.getElem?_range hlt,
      List.getElem?_replicate, hlt]
  unfold meshCorners
  rw [htri]
  have hfaces : (gridMesh T m).mFaces.flatMap (fun f => f.mIndices.map (cornerOf fsub (gridMesh T m)))
      = ((List.range T).flatMap (fun t => [3 * t, 3 * t + 1, 3 * t + 2])).map
          (cornerOf fsub (gridMesh T m)) := by
    simp only [gridMesh, List.flatMap_map, List.map_flatMap]
  rw [hfaces, range_flatMap_triples]
  exact List.map_congr_left hcorner

theorem gridScene_corners (fsub : F32 → F32 → F32) (T : Nat) :
    sceneCorners fsub (gridScene T) =
      (List.range (3 * T)).map (gridCorner fsub 0) ++
        ((List.range (3 * T)).map (gridCorner fsub 1) ++
          (List.range (3 * T)).map (gridCorner fsub 2)) := by
  simp [sceneCorners, gridScene, gridMesh_corners]

theorem gridScene_consistent (T : Nat) : (gridScene T).Consistent := by
  intro mesh hmesh
  have hgrid : ∃ m, mesh = gridMesh T m := by
    simp only [gridScene, List.mem_cons, List.mem_singleton, List.not_mem_nil, or_false] at hmesh
    rcases hmesh with h | h | h
    · exact ⟨0, h⟩
    · exact ⟨1, h⟩
    · exact ⟨2, h⟩
  obtain ⟨m, rfl⟩ := hgrid
  refine ⟨?_, ?_, ?_⟩
  · intro ns hns
    simp only [gridMesh, Option.mem_def, Option.some.injEq] at hns
    subst hns
    simp [gridMesh]
  · intro ts hts
    simp only [gridMesh, Option.mem_def, Option.some.injEq] at hts
    subst hts
    simp [gridMesh]
  · intro f hf idx hidx
    simp only [gridMesh, List.mem_map, List.mem_range] at hf
    obtain ⟨t, ht, rfl⟩ := hf
    simp only [List.mem_cons, List.mem_singleton, List.not_mem_nil, or_false] at hidx
    simp only [gridMesh, List.length_map, List.length_range]
    omega

theorem gridScene_hasNormalsAndUVs (T : Nat) : (gridScene T).hasNormalsAndUVs = true := rfl

theorem gridScene_pairwise (fsub : F32 → F32 → F32) (T : Nat) (hT : 3 * T ≤ 2130706432) :
    (sceneCorners fsub (gridScene T)).Pairwise (fun a b => Vertex.veq a b = false) := by
  have hmesh : ∀ m, m < 2130706432 →
      ((List.range (3 * T)).map (gridCorner fsub m)).Pairwise
        (fun a b => Vertex.veq a b = false) := by
    intro m hm
    rw [List.pairwise_map]
    refine List.Pairwise.imp_of_mem ?_ (List.nodup_range (3 * T))
    intro i j hi hj hij
    have hi1 := List.mem_range.mp hi
    have hj1 := List.mem_range.mp hj
    cases hv : Vertex.veq (gridCorner fsub m i) (gridCorner fsub m j) with
    | false => rfl
    | true => exact absurd (gridCorner_veq hm hm (by omega) (by omega) hv).2 hij
  have hcross : ∀ m n, m < 2130706432 → n < 2130706432 → m ≠ n →
      ∀ a ∈ (List.range (3 * T)).map (gridCorner fsub m),
      ∀ b ∈ (List.range (3 * T)).map (gridCorner fsub n), Vertex.veq a b = false := by
    intro m n hm hn hmn a ha b hb
    obtain ⟨i, hi, rfl⟩ := List.mem_map.mp ha
    obtain ⟨j, hj, rfl⟩ := List.mem_map.mp hb
    have hi1 := List.mem_range.mp hi
    have hj1 := List.mem_range.mp hj
    cases hv : Vertex.veq (gridCorner fsub m i) (gridCorner fsub n j) with
    | false => rfl
    | true => exact absurd (gridCorner_veq hm hn (by omega) (by omega) hv).1 hmn
  rw [gridScene_corners, List.pairwise_append, List.pairwise_append]
  refine ⟨hmesh 0 (by omega), ⟨hmesh 1 (by omega), hmesh 2 (by omega), ?_⟩, ?_⟩
  · exact hcross 1 2 (by omega) (by omega) (by omega)
  · intro a ha b hb
    rcases List.mem_append.mp hb with hb | hb
    · exact hcross 0 1 (by omega) (by omega) (by omega) a ha b hb
    · exact hcross 0 2 (by omega) (by omega) (by omega) a ha b hb

theorem distinctCorners_of_pairwise (cs : List Vertex)
    (h : cs.Pairwise (fun a b => Vertex.veq a b = false)) : distinctCorners cs = cs := by
  induction cs using List.reverseRecOn with
  | nil => rfl
  | append_singleton cs c ih =>
    rw [List.pairwise_append] at h
    have hany : cs.any (fun u => Vertex.veq u c) = false := by
      rw [List.any_eq_false]
      intro u hu
      simp [h.2.2 u hu c (List.mem_singleton_self c)]
    rw [distinctCorners_concat, hany, ih h.1]
    simp

theorem gridScene_hostVerts_length (fsub : F32 → F32 → F32) (T : Nat)
    (hT : 3 * T ≤ 2130706432) :
    (weld WeldState.empty (sceneCorners fsub (gridScene T))).hostVerts.length = 9 * T := by
  obtain ⟨raw, hinv⟩ := weld_inv (sceneCorners fsub (gridScene T))
  rw [hinv.verts, distinctCorners_of_pairwise _ (gridScene_pairwise fsub T hT),
    gridScene_corners]
  simp only [List.length_append, List.length_map, List.length_range]
  omega

theorem WeldState.buffers_hostVerts (st : WeldState) :
    st.buffers.hostVerts = st.hostVerts := rfl

theorem WeldState.buffers_hostIndices (st : WeldState) :
    st.buffers.hostIndices = st.hostIndices := rfl

theorem gridScene_unreferenced (T : Nat) (hT : 3 * T ≤ 2130706432) (hbig : UINT32_SIZE < 9 * T) :
    ∃ b, loadMeshIntoHostBuffers (fun _ => some (gridScene T)) sampleSub "grid.obj" [] []
        = .returned b ∧
      ∃ k : Nat, k < b.hostVerts.length ∧ k ∉ b.hostIndices := by
  refine ⟨_, loadMesh_returned (fun _ => some (gridScene T)) sampleSub "grid.obj" (gridScene T)
    rfl (gridScene_consistent T) (gridScene_hasNormalsAndUVs T), UINT32_SIZE, ?_, ?_⟩
  · rw [WeldState.buffers_hostVerts, gridScene_hostVerts_length sampleSub T hT]
    exact hbig
  · rw [WeldState.buffers_hostIndices]
    intro hmem
    obtain ⟨raw, hinv⟩ := weld_inv (sceneCorners sampleSub (gridScene T))
    exact absurd (hinv.index_lt hmem) (Nat.lt_irrefl _)

theorem gridCorner_not_hasNaN {m i : Nat} (hm : m < 2130706432) (hi : i < 2130706432) :
    (gridCorner sampleSub m i).hasNaN = false := by
  have h1 := gridFloat_not_isNaN hm
  have h2 := gridFloat_not_isNaN hi
  have h3 : F32.zero.isNaN = false := by decide
  have h4 : F32.one.isNaN = false := by decide
  have h5 : sampleSub F32.one F32.zero = F32.one := by decide
  simp [Vertex.hasNaN, Vec3.hasNaN, Vec2.hasNaN, gridCorner, makeVertex, gridVertex, unitZ,
    aiVector3D.zero, h1, h2, h3, h4, h5]

theorem gridScene_not_hasNaN (T : Nat) (hT : 3 * T ≤ 2130706432) :
    ∀ c ∈ sceneCorners sampleSub (gridScene T), c.hasNaN = false := by
  intro c hc
  rw [gridScene_corners] at hc
  simp only [List.mem_append, List.mem_map, List.mem_range] at hc
  rcases hc with ⟨i, hi, rfl⟩ | ⟨i, hi, rfl⟩ | ⟨i, hi, rfl⟩ <;>
    exact gridCorner_not_hasNaN (by omega) (by omega)

theorem WeldInv.raw_eq_of_pairwise {cs : List Vertex} {st : WeldState} {raw : List Nat}
    (h : WeldInv cs st raw) (hpw : cs.Pairwise (fun a b => Vertex.veq a b = false))
    (hnan : ∀ c ∈ cs, c.hasNaN = false) {p j : Nat} (hp : raw[p]? = some j) : j = p := by
  have hpl : p < cs.length := by rw [← h.raw_len]; exact (List.getElem?_eq_some.mp hp).1
  obtain ⟨v, hv, hvc⟩ := h.raw_ok p j cs[p] hp (List.getElem?_eq_getElem hpl)
  rw [h.verts, distinctCorners_of_pairwise cs hpw] at hv
  obtain ⟨hjl, hvj⟩ := List.getElem?_eq_some.mp hv
  have hself : Vertex.veq cs[p] cs[p] = true := Vertex.veq_self (hnan _ (List.getElem_mem hpl))
  have hveq : Vertex.veq cs[j] cs[p] = true := by
    rcases hvc with hvc | hvc
    · rw [hvj, hvc]; exact hself
    · rw [hvj]; exact hvc
  have hget := List.pairwise_iff_getElem.mp hpw
  by_contra hne
  rcases Nat.lt_or_gt_of_ne hne with hlt | hgt
  · rw [hget j p hjl hpl hlt] at hveq
    exact absurd hveq (by simp)
  · rw [Vertex.veq_symm, hget p j hpl hjl hgt] at hveq
    exact absurd hveq (by simp)

theorem gridScene_wrong_vertex (T : Nat) (hT : 3 * T ≤ 2130706432) (hbig : UINT32_SIZE < 9 * T) :
    ∃ b, loadMeshIntoHostBuffers (fun _ => some (gridScene T)) sampleSub "grid.obj" [] []
        = .returned b ∧
      ∃ (i idx : Nat) (v c : Vertex), (sceneCorners sampleSub (gridScene T))[i]? = some c ∧
        c.hasNaN = false ∧ b.hostIndices[i]? = some idx ∧ b.hostVerts[idx]? = some v ∧
        Vertex.veq v c = false := by
  obtain ⟨raw, hinv⟩ := weld_inv (sceneCorners sampleSub (gridScene T))
  have hpw := gridScene_pairwise sampleSub T hT
  have hnan := gridScene_not_hasNaN T hT
  have hverts := hinv.verts
  rw [distinctCorners_of_pairwise _ hpw] at hverts
  have hlen : (sceneCorners sampleSub (gridScene T)).length = 9 * T := by
    rw [← hverts]; exact gridScene_hostVerts_length sampleSub T hT
  have hW : UINT32_SIZE < (sceneCorners sampleSub (gridScene T)).length := by
    rw [hlen]; exact hbig
  have h0 : 0 < (sceneCorners sampleSub (gridScene T)).length := by omega
  have hrawW : UINT32_SIZE < raw.length := by rw [hinv.raw_len]; exact hW
  have hj : raw[UINT32_SIZE] = UINT32_SIZE :=
    hinv.raw_eq_of_pairwise hpw hnan (List.getElem?_eq_getElem hrawW)
  refine ⟨_, loadMesh_returned (fun _ => some (gridScene T)) sampleSub "grid.obj" (gridScene T)
    rfl (gridScene_consistent T) (gridScene_hasNormalsAndUVs T), UINT32_SIZE, 0,
    (sceneCorners sampleSub (gridScene T))[0], (sceneCorners sampleSub (gridScene T))[UINT32_SIZE],
    List.getElem?_eq_getElem hW, hnan _ (List.getElem_mem hW), ?_, ?_, ?_⟩
  · rw [WeldState.buffers_hostIndices, hinv.indices, List.getElem?_map,
      List.getElem?_eq_getElem hrawW, hj]
    simp
  · rw [WeldState.buffers_hostVerts, hverts]
    exact List.getElem?_eq_getElem h0
  · exact List.pairwise_iff_getElem.mp hpw 0 UINT32_SIZE h0 hW (by decide)

/-- C8 fails as stated: the grid scene with 477218589 triangles per mesh has
`2^32 + 5` distinct corner vertices; the loader returns, and position `2^32`
of `hostVerts` is referenced by no entry of `hostIndices`, because every
entry is a `uint32_t`. -/
theorem loadMesh_compact_fails_past_uint32 :
    (gridScene bigT).Consistent ∧ (gridScene bigT).hasNormalsAndUVs = true ∧
    ∃ b, loadMeshIntoHostBuffers (fun _ => some (gridScene bigT)) sampleSub "grid.obj" [] []
        = .returned b ∧
      ∃ k : Nat, k < b.hostVerts.length ∧ k ∉ b.hostIndices :=
  ⟨gridScene_consistent bigT, gridScene_hasNormalsAndUVs bigT,
    gridScene_unreferenced bigT (by decide) (by decide)⟩

/-- C1 fails as stated, in two ways.  In a scene with a NaN normal the
vertex stored at `hostVerts[hostIndices[0]]` is not equal, under
`operator==`, to corner 0.  In the grid scene with `2^32 + 5` distinct corner
vertices, none with a NaN, the entry of `hostIndices` for corner `2^32` is 0,
the position of a vertex that is not equal to that corner. -/
theorem loadMesh_roundtrip_fails :
    (nanScene.Consistent ∧ nanScene.hasNormalsAndUVs = true ∧
      ∃ b, loadMeshIntoHostBuffers (fun _ => some nanScene) sampleSub "nan.obj" [] []
          = .returned b ∧
        ∃ (i idx : Nat) (v c : Vertex), (sceneCorners sampleSub nanScene)[i]? = some c ∧
          b.hostIndices[i]? = some idx ∧ b.hostVerts[idx]? = some v ∧
          Vertex.veq v c = false) ∧
    ((gridScene bigT).Consistent ∧ (gridScene bigT).hasNormalsAndUVs = true ∧
      ∃ b, loadMeshIntoHostBuffers (fun _ => some (gridScene bigT)) sampleSub "grid.obj" [] []
          = .returned b ∧
        ∃ (i idx : Nat) (v c : Vertex),
          (sceneCorners sampleSub (gridScene bigT))[i]? = some c ∧ c.hasNaN = false ∧
          b.hostIndices[i]? = some idx ∧ b.hostVerts[idx]? = some v ∧
          Vertex.veq v c = false) :=
  ⟨⟨by decide, by decide, _, rfl, 0, 0, _, _, rfl, rfl, rfl, by decide⟩,
    gridScene_consistent bigT, gridScene_hasNormalsAndUVs bigT,
    gridScene_wrong_vertex bigT (by decide) (by decide)⟩

end LaughEngine
